import Mathlib

/-!
# ESP32 air mouse: the motion-processing core of `src/main.cpp`

A shallow embedding of the firmware's processing functions
(`calibrateGyro`, `updateMousePosition`, `detectStillness`,
`performDriftCorrection`, `handleSerialCommands`, `loop`) as pure functions
on an explicit state record, followed by theorems about them.

Modelling conventions

* C `float` values are exact rationals (`ℚ`): rounding error, infinities and
  NaN are outside the model.
* `unsigned long` timestamps are naturals; a difference of two `millis()`
  readings is taken modulo `2 ^ 32` (`millisDiff`), as on the ESP32.
* `int` values are integers (`ℤ`); the cast `(int) f` truncates toward zero.
* The global variables and the two function-local `static` variables of
  `updateMousePosition` are the fields of `State`.
* Every hardware read is an explicit input: a sensor sample for
  `mpu.getEvent`, a natural for each `millis()` call, a Boolean for
  `bleMouse.isConnected()`, an optional character for the serial port.
* `bleMouse.move` / `bleMouse.click` calls are returned as a list of `Event`s;
  serial printing and the LED are not modelled.
* The C library `sqrt` is a parameter `sqrtf : ℚ → ℚ` of the functions that
  call it.
-/

namespace AirMouse

/-! ## Data model -/

/-- Three-axis reading (`sensors_vec_t`): x, y, z. -/
structure Vec3 where
  x : ℚ
  y : ℚ
  z : ℚ
deriving DecidableEq, Repr

/-- One `mpu.getEvent(&a, &g, &temp)` result: acceleration `a` and angular
velocity `g` (the temperature is never used). -/
structure SensorSample where
  acceleration : Vec3
  gyro : Vec3
deriving DecidableEq, Repr

/-- Calls made on `bleMouse` by `updateMousePosition`:
`move dx dy` is `bleMouse.move(deltaX, deltaY)`, `scroll w` is
`bleMouse.move(0, 0, scroll)` and `click` is `bleMouse.click(MOUSE_LEFT)`. -/
inductive Event where
  | move (dx dy : ℤ)
  | scroll (w : ℤ)
  | click
deriving DecidableEq, Repr

/-- The mutable globals of `main.cpp` (lines 24-42) together with the
function-local statics `lastAccelMagnitude`, `lastTapTime` (lines 292-293),
`wasConnectedBefore` (line 142) and `debugMode` (line 448). -/
structure State where
  mousesensitivity : ℚ
  gyroOffsetX : ℚ
  gyroOffsetY : ℚ
  gyroOffsetZ : ℚ
  isCalibrated : Bool
  lastUpdate : ℕ
  lastConnectionCheck : ℕ
  gyroIntegralX : ℚ
  gyroIntegralY : ℚ
  lastDriftCorrection : ℕ
  driftCorrectionX : ℚ
  driftCorrectionY : ℚ
  enableDriftCorrection : Bool
  stillStartTime : ℕ
  isDeviceStill : Bool
  lastAccelMagnitude : ℚ
  lastTapTime : ℕ
  wasConnectedBefore : Bool
  debugMode : Bool
deriving DecidableEq, Repr

/-- The values given by the initialisers of the globals and statics. -/
def initialState : State where
  mousesensitivity := 3.0
  gyroOffsetX := 0
  gyroOffsetY := 0
  gyroOffsetZ := 0
  isCalibrated := false
  lastUpdate := 0
  lastConnectionCheck := 0
  gyroIntegralX := 0
  gyroIntegralY := 0
  lastDriftCorrection := 0
  driftCorrectionX := 0
  driftCorrectionY := 0
  enableDriftCorrection := true
  stillStartTime := 0
  isDeviceStill := false
  lastAccelMagnitude := 9.8
  lastTapTime := 0
  wasConnectedBefore := false
  debugMode := false

/-- Global `scrollSensitivity` (line 25); it is never assigned. -/
def scrollSensitivity : ℚ := 1.0

/-- Global `movementThreshold` (line 40), in rad/s; it is never assigned. -/
def movementThreshold : ℚ := 0.02

/-- Constant `stillDuration` (line 43), in milliseconds. -/
def stillDuration : ℕ := 3000

/-! ## Library operations used by the source -/

/-- The Arduino macro `constrain(amt, low, high)`:
`amt < low ? low : (amt > high ? high : amt)`. -/
def constrain {α : Type} [LinearOrder α] (amt low high : α) : α :=
  if amt < low then low else if amt > high then high else amt

/-- The cast `(int) f` of a float to `int`: truncation toward zero. The range
of `int` is not modelled (C leaves the cast of a value outside it undefined). -/
def toInt (f : ℚ) : ℤ :=
  if 0 ≤ f then ⌊f⌋ else ⌈f⌉

/-- Difference `a - b` of two `unsigned long` values (32 bits on the ESP32):
subtraction modulo `2 ^ 32`. -/
def millisDiff (a b : ℕ) : ℕ :=
  (((a : ℤ) - (b : ℤ)) % 4294967296).toNat

/-! ## The processing functions -/

/-- The function `calibrateGyro` (lines 182-221). `samples i` is the gyro part
of the `i`-th `mpu.getEvent` reading of the sampling loop. -/
def calibrateGyro (s : State) (samples : ℕ → Vec3) : State :=
  let n : ℕ := 250
  let sum : Vec3 := (List.range n).foldl
    (fun acc i => ⟨acc.x + (samples i).x, acc.y + (samples i).y, acc.z + (samples i).z⟩)
    ⟨0, 0, 0⟩
  { s with
    gyroOffsetX := sum.x / n
    gyroOffsetY := sum.y / n
    gyroOffsetZ := sum.z / n
    driftCorrectionX := 0
    driftCorrectionY := 0
    gyroIntegralX := 0
    gyroIntegralY := 0
    isCalibrated := true }

/-- The function `detectStillness` (lines 309-320); `now` is the `millis()`
reading of line 314. -/
def detectStillness (sqrtf : ℚ → ℚ) (s : State) (gyroX gyroY gyroZ : ℚ) (now : ℕ) : State :=
  let totalMovement := sqrtf (gyroX * gyroX + gyroY * gyroY + gyroZ * gyroZ)
  if totalMovement < movementThreshold then
    if !s.isDeviceStill then
      { s with stillStartTime := now, isDeviceStill := true }
    else s
  else
    { s with isDeviceStill := false }

/-- The three `millis()` readings of one `updateMousePosition` call. -/
structure TickTimes where
  /-- the reading inside `detectStillness` (line 314) -/
  still : ℕ
  /-- the reading in the tap condition (line 299) -/
  tapCheck : ℕ
  /-- the reading stored into `lastTapTime` (line 303) -/
  tapStamp : ℕ
deriving DecidableEq, Repr

/-- The function `updateMousePosition` (lines 223-307): the new state and the
`bleMouse` calls made, in order. -/
def updateMousePosition (sqrtf : ℚ → ℚ) (s : State) (smp : SensorSample) (t : TickTimes) :
    State × List Event :=
  if !s.isCalibrated then (s, []) else
  -- Apply calibration offsets AND drift correction
  let gyroX := smp.gyro.x - s.gyroOffsetX - s.driftCorrectionX
  let gyroY := smp.gyro.y - s.gyroOffsetY - s.driftCorrectionY
  let gyroZ := smp.gyro.z - s.gyroOffsetZ
  let s1 := detectStillness sqrtf s gyroX gyroY gyroZ t.still
  -- Enhanced deadzone with adaptive threshold
  let baseDeadzone : ℚ := 0.02
  let adaptiveDeadzone : ℚ := if s1.isDeviceStill then baseDeadzone * 2.0 else baseDeadzone
  let gyroX := if |gyroX| < adaptiveDeadzone then 0 else gyroX
  let gyroY := if |gyroY| < adaptiveDeadzone then 0 else gyroY
  let gyroZ := if |gyroZ| < adaptiveDeadzone then 0 else gyroZ
  -- Accumulate small movements for drift detection
  let s2 :=
    if s1.enableDriftCorrection then
      { s1 with
        gyroIntegralX := constrain (s1.gyroIntegralX + gyroX * 0.02) (-1.0) 1.0
        gyroIntegralY := constrain (s1.gyroIntegralY + gyroY * 0.02) (-1.0) 1.0 }
    else s1
  -- Calculate mouse movement
  let deltaX := constrain (toInt (gyroY * s2.mousesensitivity * 12)) (-25) 25
  let deltaY := constrain (toInt (-gyroX * s2.mousesensitivity * 12)) (-25) 25
  let moves := if |deltaX| > 0 ∨ |deltaY| > 0 then [Event.move deltaX deltaY] else []
  -- Handle scroll with Z-axis gyro
  let scroll := constrain (toInt (gyroZ * scrollSensitivity * 8)) (-5) 5
  let scrolls := if |scroll| > 1 then [Event.scroll scroll] else []
  -- Tap detection
  let accelMagnitude := sqrtf (smp.acceleration.x * smp.acceleration.x
    + smp.acceleration.y * smp.acceleration.y
    + smp.acceleration.z * smp.acceleration.z)
  let accelDiff := |accelMagnitude - s2.lastAccelMagnitude|
  let tap : Bool := decide (accelDiff > 4.0 ∧ millisDiff t.tapCheck s2.lastTapTime > 400)
  let s3 := if tap then { s2 with lastTapTime := t.tapStamp } else s2
  ({ s3 with lastAccelMagnitude := accelMagnitude },
    moves ++ scrolls ++ (if tap then [Event.click] else []))

/-- The function `performDriftCorrection` (lines 322-347); `now` is the
`millis()` reading of line 326. -/
def performDriftCorrection (s : State) (now : ℕ) : State :=
  if !s.enableDriftCorrection || !s.isCalibrated then s else
  if s.isDeviceStill ∧ millisDiff now s.stillStartTime > stillDuration then
    let driftFactorX := s.gyroIntegralX * 0.1
    let driftFactorY := s.gyroIntegralY * 0.1
    { s with
      driftCorrectionX := constrain (s.driftCorrectionX + driftFactorX) (-0.1) 0.1
      driftCorrectionY := constrain (s.driftCorrectionY + driftFactorY) (-0.1) 0.1
      gyroIntegralX := s.gyroIntegralX * 0.5
      gyroIntegralY := s.gyroIntegralY * 0.5 }
  else s

/-- The function `handleSerialCommands` (lines 372-476). `input` is `none`
when `Serial.available()` is zero and `some cmd` for the character read;
`samples` feeds `calibrateGyro` when the command is a recalibration. -/
def handleSerialCommands (s : State) (input : Option Char) (samples : ℕ → Vec3) : State :=
  match input with
  | none => s
  | some cmd =>
    if cmd = 'c' ∨ cmd = 'C' then
      calibrateGyro s samples
    else if cmd = 't' ∨ cmd = 'T' then
      let s1 := { s with enableDriftCorrection := !s.enableDriftCorrection }
      if !s1.enableDriftCorrection then
        { s1 with
          driftCorrectionX := 0
          driftCorrectionY := 0
          gyroIntegralX := 0
          gyroIntegralY := 0 }
      else s1
    else if cmd = 'z' ∨ cmd = 'Z' then
      { s with
        driftCorrectionX := 0
        driftCorrectionY := 0
        gyroIntegralX := 0
        gyroIntegralY := 0 }
    else if cmd = '+' then
      { s with mousesensitivity := constrain (s.mousesensitivity + 0.5) 0.5 10.0 }
    else if cmd = '-' then
      { s with mousesensitivity := constrain (s.mousesensitivity - 0.5) 0.5 10.0 }
    else if cmd = 'd' ∨ cmd = 'D' then
      { s with debugMode := !s.debugMode }
    else s

/-- The function `loop` logs which of the two processing functions it called. -/
inductive Call where
  | updateMousePosition
  | performDriftCorrection
deriving DecidableEq, Repr

/-- The hardware reads of one `loop` iteration, in program order. -/
structure LoopInput where
  /-- the `millis()` reading of line 134 -/
  currentTime : ℕ
  /-- the serial port as seen by `handleSerialCommands` -/
  serial : Option Char
  /-- gyro readings for a recalibration command -/
  calibration : ℕ → Vec3
  /-- the result of `bleMouse.isConnected()` at line 141 -/
  connectedAtCheck : Bool
  /-- the result of `bleMouse.isConnected()` at line 164 -/
  connected : Bool
  /-- the `mpu.getEvent` reading of `updateMousePosition` -/
  sample : SensorSample
  /-- the `millis()` readings of `updateMousePosition` -/
  tick : TickTimes
  /-- the `millis()` reading of `performDriftCorrection` -/
  driftNow : ℕ

/-- One iteration of `loop` (lines 133-179): the new state, the `bleMouse`
calls made and the log of processing functions called, in order. -/
def loop (sqrtf : ℚ → ℚ) (s : State) (i : LoopInput) : State × List Event × List Call :=
  let currentTime := i.currentTime
  -- Handle serial commands
  let s := handleSerialCommands s i.serial i.calibration
  -- Check connection status every 2 seconds
  let s :=
    if millisDiff currentTime s.lastConnectionCheck > 2000 then
      let s := if i.connectedAtCheck && !s.wasConnectedBefore then
        { s with wasConnectedBefore := true } else s
      { s with lastConnectionCheck := currentTime }
    else s
  -- Mouse functionality only when connected
  let r : State × List Event × List Call :=
    if i.connected ∧ millisDiff currentTime s.lastUpdate > 20 then
      let u := updateMousePosition sqrtf s i.sample i.tick
      ({ u.1 with lastUpdate := currentTime }, u.2, [Call.updateMousePosition])
    else (s, [], [])
  -- Perform drift correction every 30 seconds
  if r.1.enableDriftCorrection ∧ millisDiff currentTime r.1.lastDriftCorrection > 30000 then
    ({ performDriftCorrection r.1 i.driftNow with lastDriftCorrection := currentTime },
      r.2.1, r.2.2 ++ [Call.performDriftCorrection])
  else r

/-! ## Operation sequences -/

/-- One operation applied to the state between, or inside, `loop`
iterations. -/
inductive Op where
  | update (smp : SensorSample) (t : TickTimes)
  | drift (now : ℕ)
  | calibrate (samples : ℕ → Vec3)
  | serial (cmd : Char) (samples : ℕ → Vec3)

/-- The state after one operation. -/
def Op.apply (sqrtf : ℚ → ℚ) (s : State) : Op → State
  | .update smp t => (updateMousePosition sqrtf s smp t).1
  | .drift now => performDriftCorrection s now
  | .calibrate samples => calibrateGyro s samples
  | .serial cmd samples => handleSerialCommands s (some cmd) samples

/-- The state after a finite sequence of operations, left to right. -/
def run (sqrtf : ℚ → ℚ) (s : State) (ops : List Op) : State :=
  ops.foldl (Op.apply sqrtf) s

/-- The four drift fields: integrals within `[-1, 1]`, corrections within
`[-0.1, 0.1]`. -/
def DriftBounded (s : State) : Prop :=
  (-1.0 ≤ s.gyroIntegralX ∧ s.gyroIntegralX ≤ 1.0) ∧
  (-1.0 ≤ s.gyroIntegralY ∧ s.gyroIntegralY ≤ 1.0) ∧
  (-0.1 ≤ s.driftCorrectionX ∧ s.driftCorrectionX ≤ 0.1) ∧
  (-0.1 ≤ s.driftCorrectionY ∧ s.driftCorrectionY ≤ 0.1)

/-- The four drift fields are all zero. -/
def DriftZero (s : State) : Prop :=
  s.driftCorrectionX = 0 ∧ s.driftCorrectionY = 0 ∧
  s.gyroIntegralX = 0 ∧ s.gyroIntegralY = 0

/-- The four drift fields as a tuple
`(driftCorrectionX, driftCorrectionY, gyroIntegralX, gyroIntegralY)`. -/
def driftFields (s : State) : ℚ × ℚ × ℚ × ℚ :=
  (s.driftCorrectionX, s.driftCorrectionY, s.gyroIntegralX, s.gyroIntegralY)

/-! ## Quantities named in the statements -/

/-- The corrected angular velocity of lines 231-233: offsets subtracted on all
axes, drift correction subtracted on X and Y only. -/
def correctedGyro (s : State) (smp : SensorSample) : Vec3 :=
  ⟨smp.gyro.x - s.gyroOffsetX - s.driftCorrectionX,
   smp.gyro.y - s.gyroOffsetY - s.driftCorrectionY,
   smp.gyro.z - s.gyroOffsetZ⟩

/-- The stillness flag after the `detectStillness` call of this tick. -/
def stillAfter (sqrtf : ℚ → ℚ) (s : State) (smp : SensorSample) (t : TickTimes) : Bool :=
  (detectStillness sqrtf s (correctedGyro s smp).x (correctedGyro s smp).y
    (correctedGyro s smp).z t.still).isDeviceStill

/-- The active deadzone: 0.04 when flagged still, 0.02 otherwise. -/
def activeDeadzone (still : Bool) : ℚ :=
  if still then 0.04 else 0.02

/-- A value with magnitude below the deadzone `dz` becomes zero. -/
def deadzoned (dz v : ℚ) : ℚ :=
  if |v| < dz then 0 else v

/-- The magnitude of the acceleration as the source computes it (line 288). -/
def accelMagnitude (sqrtf : ℚ → ℚ) (smp : SensorSample) : ℚ :=
  sqrtf (smp.acceleration.x * smp.acceleration.x
    + smp.acceleration.y * smp.acceleration.y
    + smp.acceleration.z * smp.acceleration.z)

/-- The state of a `loop` iteration after `handleSerialCommands` and the
connection check (lines 137-161), before the two processing steps. -/
def loopPrologue (s : State) (i : LoopInput) : State :=
  let s := handleSerialCommands s i.serial i.calibration
  if millisDiff i.currentTime s.lastConnectionCheck > 2000 then
    let s := if i.connectedAtCheck && !s.wasConnectedBefore then
      { s with wasConnectedBefore := true } else s
    { s with lastConnectionCheck := i.currentTime }
  else s

/-- Number of click events in a list of events. -/
def clicks (evs : List Event) : ℕ :=
  evs.count Event.click

/-- The scroll amount of line 280-281: the deadzoned corrected Z rate times
`scrollSensitivity * 8`, cast to `int` and clamped to `[-5, 5]`. -/
def scrollValue (sqrtf : ℚ → ℚ) (s : State) (smp : SensorSample) (t : TickTimes) : ℤ :=
  constrain (toInt (deadzoned (activeDeadzone (stillAfter sqrtf s smp t))
    (correctedGyro s smp).z * scrollSensitivity * 8)) (-5) 5

/-- The horizontal delta of line 263 before clamping. -/
def rawDeltaX (sqrtf : ℚ → ℚ) (s : State) (smp : SensorSample) (t : TickTimes) : ℤ :=
  toInt (deadzoned (activeDeadzone (stillAfter sqrtf s smp t))
    (correctedGyro s smp).y * s.mousesensitivity * 12)

/-- The vertical delta of line 264 before clamping. -/
def rawDeltaY (sqrtf : ℚ → ℚ) (s : State) (smp : SensorSample) (t : TickTimes) : ℤ :=
  toInt (-deadzoned (activeDeadzone (stillAfter sqrtf s smp t))
    (correctedGyro s smp).x * s.mousesensitivity * 12)

/-- The scroll amounts among the events, in order. -/
def scrollsOf (evs : List Event) : List ℤ :=
  evs.filterMap (fun e => match e with
    | Event.scroll w => some w
    | _ => none)

/-- The sensitivity lies in `[0.5, 10]` and is an integer multiple of 0.5. -/
def SensOnGrid (s : State) : Prop :=
  (0.5 ≤ s.mousesensitivity ∧ s.mousesensitivity ≤ 10.0) ∧
  ∃ k : ℤ, s.mousesensitivity = k * 0.5

/-- The property of the square root that the stillness arguments rely on:
on a non-negative argument `sqrtf v` is non-negative and its square is at
least `v`. The real square root has it, with equality. -/
def SqrtSound (sqrtf : ℚ → ℚ) : Prop :=
  ∀ v : ℚ, 0 ≤ v → 0 ≤ sqrtf v ∧ v ≤ sqrtf v * sqrtf v

/-- A rational square root that never under-estimates: exact on the square of
a rational, otherwise rounded up to the next multiple of one over the
denominator. -/
def sqrtUp (v : ℚ) : ℚ :=
  if Nat.sqrt (v.num.toNat * v.den) * Nat.sqrt (v.num.toNat * v.den) = v.num.toNat * v.den then
    (Nat.sqrt (v.num.toNat * v.den) : ℚ) / v.den
  else
    ((Nat.sqrt (v.num.toNat * v.den) : ℚ) + 1) / v.den

/-- The variant of `updateMousePosition` named in claim C18: the same
function with the fixed base deadzone 0.02 in place of the adaptive one. -/
def updateMousePositionBaseDeadzone (sqrtf : ℚ → ℚ) (s : State) (smp : SensorSample)
    (t : TickTimes) : State × List Event :=
  if !s.isCalibrated then (s, []) else
  let gyroX := smp.gyro.x - s.gyroOffsetX - s.driftCorrectionX
  let gyroY := smp.gyro.y - s.gyroOffsetY - s.driftCorrectionY
  let gyroZ := smp.gyro.z - s.gyroOffsetZ
  let s1 := detectStillness sqrtf s gyroX gyroY gyroZ t.still
  let baseDeadzone : ℚ := 0.02
  let gyroX := if |gyroX| < baseDeadzone then 0 else gyroX
  let gyroY := if |gyroY| < baseDeadzone then 0 else gyroY
  let gyroZ := if |gyroZ| < baseDeadzone then 0 else gyroZ
  let s2 :=
    if s1.enableDriftCorrection then
      { s1 with
        gyroIntegralX := constrain (s1.gyroIntegralX + gyroX * 0.02) (-1.0) 1.0
        gyroIntegralY := constrain (s1.gyroIntegralY + gyroY * 0.02) (-1.0) 1.0 }
    else s1
  let deltaX := constrain (toInt (gyroY * s2.mousesensitivity * 12)) (-25) 25
  let deltaY := constrain (toInt (-gyroX * s2.mousesensitivity * 12)) (-25) 25
  let moves := if |deltaX| > 0 ∨ |deltaY| > 0 then [Event.move deltaX deltaY] else []
  let scroll := constrain (toInt (gyroZ * scrollSensitivity * 8)) (-5) 5
  let scrolls := if |scroll| > 1 then [Event.scroll scroll] else []
  let accelMagnitude := sqrtf (smp.acceleration.x * smp.acceleration.x
    + smp.acceleration.y * smp.acceleration.y
    + smp.acceleration.z * smp.acceleration.z)
  let accelDiff := |accelMagnitude - s2.lastAccelMagnitude|
  let tap : Bool := decide (accelDiff > 4.0 ∧ millisDiff t.tapCheck s2.lastTapTime > 400)
  let s3 := if tap then { s2 with lastTapTime := t.tapStamp } else s2
  ({ s3 with lastAccelMagnitude := accelMagnitude },
    moves ++ scrolls ++ (if tap then [Event.click] else []))

/-- Disabled drift correction implies that the four drift fields are zero. -/
def DisabledZero (s : State) : Prop :=
  s.enableDriftCorrection = false → DriftZero s

/-! ## Concrete states and inputs used by the witnesses -/

/-- A state with accumulated drift, device still since time 0. -/
def driftedState : State :=
  { initialState with
    isCalibrated := true
    gyroIntegralX := 0.5
    gyroIntegralY := -0.25
    driftCorrectionX := 0.08
    driftCorrectionY := 0.01
    isDeviceStill := true
    stillStartTime := 0 }

/-- The scenario state: calibrated with offsets `(0.05, 0, 0)`, no drift
correction, sensitivity 3.0. -/
def scenarioState : State :=
  { initialState with isCalibrated := true, gyroOffsetX := 0.05 }

/-- The scenario sample: raw gyro `(0.1, 0, 0)`, device at rest under
gravity. -/
def scenarioSample : SensorSample :=
  { acceleration := ⟨0, 0, 9.8⟩, gyro := ⟨0.1, 0, 0⟩ }

/-- A calibrated state whose last tap was at time 1000 and whose last
acceleration magnitude is 9.8. -/
def tapState : State :=
  { initialState with isCalibrated := true, lastTapTime := 1000 }

/-- A jolt: acceleration magnitude 14.8, no rotation. -/
def joltSample : SensorSample :=
  { acceleration := ⟨0, 0, 14.8⟩, gyro := ⟨0, 0, 0⟩ }

/-- A sample at rest: acceleration magnitude 9.8, no rotation. -/
def restSample : SensorSample :=
  { acceleration := ⟨0, 0, 9.8⟩, gyro := ⟨0, 0, 0⟩ }

/-- A sample whose corrected X rate, 0.01, is inside the deadzone while the
corrected Y rate, 0.3, is not (offsets of `scenarioState`). -/
def tiltSample : SensorSample :=
  { acceleration := ⟨0, 0, 9.8⟩, gyro := ⟨0.06, 0.3, 0⟩ }

/-- A calibrated state still flagged still from an earlier tick, with some
accumulated integral; drift correction last ran at time 0. -/
def staleStillState : State :=
  { initialState with
    isCalibrated := true
    isDeviceStill := true
    stillStartTime := 0
    gyroIntegralX := 0.5 }

/-- A sample in clear motion: 1 rad/s about X. -/
def movingSample : SensorSample :=
  { acceleration := ⟨0, 0, 9.8⟩, gyro := ⟨1, 0, 0⟩ }

/-- An iteration at time 40000 with no serial input; `connected` says whether
the BLE host is connected. -/
def iterationAt40000 (connected : Bool) : LoopInput :=
  { currentTime := 40000
    serial := none
    calibration := fun _ => ⟨0, 0, 0⟩
    connectedAtCheck := connected
    connected := connected
    sample := movingSample
    tick := ⟨40000, 40000, 40000⟩
    driftNow := 40000 }

/-- A yaw of 0.25 rad/s with no pitch or roll left after the offsets of
`scenarioState`. -/
def yawSample : SensorSample :=
  { acceleration := ⟨0, 0, 9.8⟩, gyro := ⟨0.05, 0, 0.25⟩ }

/-- A fast roll: corrected Y rate 1.12 rad/s, which at sensitivity 3.0 gives
the delta 40 before clamping. -/
def fastSample : SensorSample :=
  { acceleration := ⟨0, 0, 9.8⟩, gyro := ⟨0.05, 1.12, 0⟩ }

/-- A slow drift of 0.01 rad/s about X, inside the movement threshold. -/
def slowSample : SensorSample :=
  { acceleration := ⟨0, 0, 9.8⟩, gyro := ⟨0.01, 0, 0⟩ }

/-- Calibration readings of a device at perfect rest. -/
def zeroCalibration : ℕ → Vec3 :=
  fun _ => ⟨0, 0, 0⟩

/-- The state `tapState` with other values in the four drift fields. -/
def driftShiftedState : State :=
  { tapState with
    driftCorrectionX := 0.1
    driftCorrectionY := 0
    gyroIntegralX := 0.3
    gyroIntegralY := -0.2 }

/-! ## Basic lemmas -/

lemma constrain_mem {α : Type} [LinearOrder α] (amt : α) {low high : α} (h : low ≤ high) :
    low ≤ constrain amt low high ∧ constrain amt low high ≤ high := by
  unfold constrain
  split_ifs with h1 h2
  · exact ⟨le_rfl, h⟩
  · exact ⟨h, le_rfl⟩
  · exact ⟨not_lt.mp h1, not_lt.mp h2⟩

lemma constrain_of_mem {α : Type} [LinearOrder α] {amt low high : α}
    (h1 : low ≤ amt) (h2 : amt ≤ high) : constrain amt low high = amt := by
  unfold constrain
  rw [if_neg (not_lt.mpr h1), if_neg (not_lt.mpr h2)]

lemma detectStillness_drift (sqrtf : ℚ → ℚ) (s : State) (x y z : ℚ) (now : ℕ) :
    driftFields (detectStillness sqrtf s x y z now) = driftFields s ∧
    (detectStillness sqrtf s x y z now).enableDriftCorrection = s.enableDriftCorrection := by
  unfold detectStillness
  simp only []
  split_ifs <;> simp [driftFields]

lemma detectStillness_frame (sqrtf : ℚ → ℚ) (s : State) (x y z : ℚ) (now : ℕ) :
    (detectStillness sqrtf s x y z now).mousesensitivity = s.mousesensitivity ∧
    (detectStillness sqrtf s x y z now).lastAccelMagnitude = s.lastAccelMagnitude ∧
    (detectStillness sqrtf s x y z now).lastTapTime = s.lastTapTime := by
  unfold detectStillness
  simp only []
  split_ifs <;> simp

lemma activeDeadzone_eq (b : Bool) :
    (if b = true then (0.02 : ℚ) * 2.0 else 0.02) = activeDeadzone b := by
  unfold activeDeadzone
  cases b <;> norm_num

/-- The events of a tick of a calibrated system, written with the named
quantities: an optional move, an optional scroll, an optional click. -/
lemma updateMousePosition_events (sqrtf : ℚ → ℚ) (s : State) (smp : SensorSample)
    (t : TickTimes) (hc : s.isCalibrated = true) :
    (updateMousePosition sqrtf s smp t).2 =
      (if constrain (toInt (deadzoned (activeDeadzone (stillAfter sqrtf s smp t))
              (correctedGyro s smp).y * s.mousesensitivity * 12)) (-25) 25 ≠ 0 ∨
          constrain (toInt (-deadzoned (activeDeadzone (stillAfter sqrtf s smp t))
              (correctedGyro s smp).x * s.mousesensitivity * 12)) (-25) 25 ≠ 0
        then [Event.move
          (constrain (toInt (deadzoned (activeDeadzone (stillAfter sqrtf s smp t))
              (correctedGyro s smp).y * s.mousesensitivity * 12)) (-25) 25)
          (constrain (toInt (-deadzoned (activeDeadzone (stillAfter sqrtf s smp t))
              (correctedGyro s smp).x * s.mousesensitivity * 12)) (-25) 25)]
        else []) ++
      (if |constrain (toInt (deadzoned (activeDeadzone (stillAfter sqrtf s smp t))
              (correctedGyro s smp).z * scrollSensitivity * 8)) (-5) 5| > 1
        then [Event.scroll
          (constrain (toInt (deadzoned (activeDeadzone (stillAfter sqrtf s smp t))
              (correctedGyro s smp).z * scrollSensitivity * 8)) (-5) 5)]
        else []) ++
      (if |accelMagnitude sqrtf smp - s.lastAccelMagnitude| > 4.0 ∧
          millisDiff t.tapCheck s.lastTapTime > 400
        then [Event.click] else []) := by
  obtain ⟨f1, f2, f3⟩ := detectStillness_frame sqrtf s
    (smp.gyro.x - s.gyroOffsetX - s.driftCorrectionX)
    (smp.gyro.y - s.gyroOffsetY - s.driftCorrectionY)
    (smp.gyro.z - s.gyroOffsetZ) t.still
  simp only [updateMousePosition, hc, Bool.not_true, Bool.false_eq_true, if_false,
    activeDeadzone_eq, stillAfter, correctedGyro, deadzoned, accelMagnitude]
  congr 1
  · congr 1
    split_ifs <;> simp_all [abs_pos]
  · split_ifs <;> simp_all

/-- The state after a tick of a calibrated system: the state left by
`detectStillness` with the integrals, `lastTapTime` and `lastAccelMagnitude`
updated. -/
lemma updateMousePosition_state (sqrtf : ℚ → ℚ) (s : State) (smp : SensorSample)
    (t : TickTimes) (hc : s.isCalibrated = true) :
    (updateMousePosition sqrtf s smp t).1 =
      { detectStillness sqrtf s (correctedGyro s smp).x (correctedGyro s smp).y
          (correctedGyro s smp).z t.still with
        gyroIntegralX :=
          if s.enableDriftCorrection = true then
            constrain (s.gyroIntegralX +
              deadzoned (activeDeadzone (stillAfter sqrtf s smp t)) (correctedGyro s smp).x
                * 0.02) (-1.0) 1.0
          else s.gyroIntegralX
        gyroIntegralY :=
          if s.enableDriftCorrection = true then
            constrain (s.gyroIntegralY +
              deadzoned (activeDeadzone (stillAfter sqrtf s smp t)) (correctedGyro s smp).y
                * 0.02) (-1.0) 1.0
          else s.gyroIntegralY
        lastTapTime :=
          if |accelMagnitude sqrtf smp - s.lastAccelMagnitude| > 4.0 ∧
              millisDiff t.tapCheck s.lastTapTime > 400
          then t.tapStamp else s.lastTapTime
        lastAccelMagnitude := accelMagnitude sqrtf smp } := by
  obtain ⟨_, f2, f3⟩ := detectStillness_frame sqrtf s
    (smp.gyro.x - s.gyroOffsetX - s.driftCorrectionX)
    (smp.gyro.y - s.gyroOffsetY - s.driftCorrectionY)
    (smp.gyro.z - s.gyroOffsetZ) t.still
  obtain ⟨hf, he⟩ := detectStillness_drift sqrtf s
    (smp.gyro.x - s.gyroOffsetX - s.driftCorrectionX)
    (smp.gyro.y - s.gyroOffsetY - s.driftCorrectionY)
    (smp.gyro.z - s.gyroOffsetZ) t.still
  simp only [driftFields, Prod.mk.injEq] at hf
  obtain ⟨_, _, g3, g4⟩ := hf
  simp only [updateMousePosition, hc, Bool.not_true, Bool.false_eq_true, if_false,
    activeDeadzone_eq, stillAfter, correctedGyro, deadzoned, accelMagnitude]
  by_cases hen : s.enableDriftCorrection = true
  · rw [hen] at he
    by_cases htap : |sqrtf (smp.acceleration.x * smp.acceleration.x
        + smp.acceleration.y * smp.acceleration.y
        + smp.acceleration.z * smp.acceleration.z) - s.lastAccelMagnitude| > 4.0 ∧
        millisDiff t.tapCheck s.lastTapTime > 400
    · simp only [he, hen, if_true, f2, f3, g3, g4, htap, and_self, decide_True]
    · simp only [he, hen, if_true, f2, f3, g3, g4, htap, decide_False, Bool.false_eq_true,
        if_false]
  · simp only [Bool.not_eq_true] at hen
    rw [hen] at he
    by_cases htap : |sqrtf (smp.acceleration.x * smp.acceleration.x
        + smp.acceleration.y * smp.acceleration.y
        + smp.acceleration.z * smp.acceleration.z) - s.lastAccelMagnitude| > 4.0 ∧
        millisDiff t.tapCheck s.lastTapTime > 400
    · simp only [he, hen, Bool.false_eq_true, if_false, f2, f3, g3, g4, htap, and_self,
        decide_True, if_true]
    · simp only [he, hen, Bool.false_eq_true, if_false, f2, f3, g3, g4, htap, decide_False]

/-- The tap detector state after a tick of a calibrated system. -/
lemma updateMousePosition_tapState (sqrtf : ℚ → ℚ) (s : State) (smp : SensorSample)
    (t : TickTimes) (hc : s.isCalibrated = true) :
    (updateMousePosition sqrtf s smp t).1.lastAccelMagnitude = accelMagnitude sqrtf smp ∧
    (updateMousePosition sqrtf s smp t).1.lastTapTime =
      (if |accelMagnitude sqrtf smp - s.lastAccelMagnitude| > 4.0 ∧
          millisDiff t.tapCheck s.lastTapTime > 400
        then t.tapStamp else s.lastTapTime) := by
  rw [updateMousePosition_state sqrtf s smp t hc]
  exact ⟨rfl, rfl⟩

lemma detectStillness_isCalibrated (sqrtf : ℚ → ℚ) (s : State) (x y z : ℚ) (now : ℕ) :
    (detectStillness sqrtf s x y z now).isCalibrated = s.isCalibrated := by
  unfold detectStillness
  simp only []
  split_ifs <;> simp

lemma updateMousePosition_isCalibrated (sqrtf : ℚ → ℚ) (s : State) (smp : SensorSample)
    (t : TickTimes) :
    (updateMousePosition sqrtf s smp t).1.isCalibrated = s.isCalibrated := by
  by_cases hc : s.isCalibrated = true
  · rw [updateMousePosition_state sqrtf s smp t hc]
    exact detectStillness_isCalibrated sqrtf s _ _ _ _
  · simp [updateMousePosition, hc]

/-- A tick of a calibrated system clicks exactly when the tap condition of
line 298 holds, and then exactly once. -/
lemma updateMousePosition_click (sqrtf : ℚ → ℚ) (s : State) (smp : SensorSample)
    (t : TickTimes) (hc : s.isCalibrated = true) :
    (Event.click ∈ (updateMousePosition sqrtf s smp t).2 ↔
      (|accelMagnitude sqrtf smp - s.lastAccelMagnitude| > 4.0 ∧
        millisDiff t.tapCheck s.lastTapTime > 400)) ∧
    clicks (updateMousePosition sqrtf s smp t).2 =
      (if |accelMagnitude sqrtf smp - s.lastAccelMagnitude| > 4.0 ∧
          millisDiff t.tapCheck s.lastTapTime > 400 then 1 else 0) := by
  rw [updateMousePosition_events sqrtf s smp t hc]
  constructor
  · simp only [List.mem_append]
    constructor
    · rintro ((h | h) | h)
      · split_ifs at h <;> simp at h
      · split_ifs at h <;> simp at h
      · split_ifs at h with htap
        · exact htap
        · cases h
    · intro htap
      right
      rw [if_pos htap]
      exact List.mem_singleton.mpr rfl
  · simp only [clicks, List.count_append]
    split_ifs <;> simp

/-- Which move events a tick of a calibrated system emits. -/
lemma updateMousePosition_move_iff (sqrtf : ℚ → ℚ) (s : State) (smp : SensorSample)
    (t : TickTimes) (hc : s.isCalibrated = true) (dx dy : ℤ) :
    Event.move dx dy ∈ (updateMousePosition sqrtf s smp t).2 ↔
      (dx = constrain (toInt (deadzoned (activeDeadzone (stillAfter sqrtf s smp t))
              (correctedGyro s smp).y * s.mousesensitivity * 12)) (-25) 25 ∧
        dy = constrain (toInt (-deadzoned (activeDeadzone (stillAfter sqrtf s smp t))
              (correctedGyro s smp).x * s.mousesensitivity * 12)) (-25) 25 ∧
        (dx ≠ 0 ∨ dy ≠ 0)) := by
  rw [updateMousePosition_events sqrtf s smp t hc]
  simp only [List.mem_append]
  constructor
  · rintro ((h | h) | h)
    · split_ifs at h with hnz
      · simp only [List.mem_singleton, Event.move.injEq] at h
        obtain ⟨h1, h2⟩ := h
        subst h1 h2
        exact ⟨rfl, rfl, hnz⟩
      · cases h
    · split_ifs at h <;> simp at h
    · split_ifs at h <;> simp at h
  · rintro ⟨h1, h2, hnz⟩
    subst h1 h2
    left; left
    rw [if_pos hnz]
    exact List.mem_singleton.mpr rfl

lemma constrain_zero_cursor : constrain (0 : ℤ) (-25) 25 = 0 := by
  decide

lemma deadzoned_of_lt {dz v : ℚ} (h : |v| < dz) : deadzoned dz v = 0 := by
  unfold deadzoned
  rw [if_pos h]

lemma detectStillness_lastDriftCorrection (sqrtf : ℚ → ℚ) (s : State) (x y z : ℚ)
    (now : ℕ) :
    (detectStillness sqrtf s x y z now).lastDriftCorrection = s.lastDriftCorrection := by
  unfold detectStillness
  simp only []
  split_ifs <;> simp

lemma updateMousePosition_lastDriftCorrection (sqrtf : ℚ → ℚ) (s : State)
    (smp : SensorSample) (t : TickTimes) :
    (updateMousePosition sqrtf s smp t).1.lastDriftCorrection = s.lastDriftCorrection := by
  by_cases hc : s.isCalibrated = true
  · rw [updateMousePosition_state sqrtf s smp t hc]
    exact detectStillness_lastDriftCorrection sqrtf s _ _ _ _
  · simp [updateMousePosition, hc]

lemma updateMousePosition_enable (sqrtf : ℚ → ℚ) (s : State)
    (smp : SensorSample) (t : TickTimes) :
    (updateMousePosition sqrtf s smp t).1.enableDriftCorrection = s.enableDriftCorrection := by
  by_cases hc : s.isCalibrated = true
  · rw [updateMousePosition_state sqrtf s smp t hc]
    exact (detectStillness_drift sqrtf s _ _ _ _).2
  · simp [updateMousePosition, hc]

/-- The iteration of `loop` in terms of the state after its prologue. -/
lemma loop_eq (sqrtf : ℚ → ℚ) (s : State) (i : LoopInput) :
    loop sqrtf s i =
      if i.connected = true ∧ millisDiff i.currentTime (loopPrologue s i).lastUpdate > 20 then
        if (loopPrologue s i).enableDriftCorrection = true ∧
            millisDiff i.currentTime (loopPrologue s i).lastDriftCorrection > 30000 then
          ({ performDriftCorrection
                { (updateMousePosition sqrtf (loopPrologue s i) i.sample i.tick).1 with
                  lastUpdate := i.currentTime } i.driftNow with
              lastDriftCorrection := i.currentTime },
            (updateMousePosition sqrtf (loopPrologue s i) i.sample i.tick).2,
            [Call.updateMousePosition, Call.performDriftCorrection])
        else
          ({ (updateMousePosition sqrtf (loopPrologue s i) i.sample i.tick).1 with
              lastUpdate := i.currentTime },
            (updateMousePosition sqrtf (loopPrologue s i) i.sample i.tick).2,
            [Call.updateMousePosition])
      else
        if (loopPrologue s i).enableDriftCorrection = true ∧
            millisDiff i.currentTime (loopPrologue s i).lastDriftCorrection > 30000 then
          ({ performDriftCorrection (loopPrologue s i) i.driftNow with
              lastDriftCorrection := i.currentTime }, [], [Call.performDriftCorrection])
        else (loopPrologue s i, [], []) := by
  have h1 := updateMousePosition_lastDriftCorrection sqrtf (loopPrologue s i) i.sample i.tick
  have h2 := updateMousePosition_enable sqrtf (loopPrologue s i) i.sample i.tick
  show (let r : State × List Event × List Call :=
      if i.connected = true ∧ millisDiff i.currentTime (loopPrologue s i).lastUpdate > 20 then
        ({ (updateMousePosition sqrtf (loopPrologue s i) i.sample i.tick).1 with
            lastUpdate := i.currentTime },
          (updateMousePosition sqrtf (loopPrologue s i) i.sample i.tick).2,
          [Call.updateMousePosition])
      else (loopPrologue s i, [], [])
    if r.1.enableDriftCorrection = true ∧
        millisDiff i.currentTime r.1.lastDriftCorrection > 30000 then
      ({ performDriftCorrection r.1 i.driftNow with lastDriftCorrection := i.currentTime },
        r.2.1, r.2.2 ++ [Call.performDriftCorrection])
    else r) = _
  simp only []
  by_cases hu : i.connected = true ∧ millisDiff i.currentTime (loopPrologue s i).lastUpdate > 20
  · simp only [if_pos hu, h1, h2, List.singleton_append]
  · simp only [if_neg hu, List.nil_append]

/-- What `updateMousePosition` does to the drift fields and to the enable
flag: the corrections and the flag are kept, and each integral is either kept
or replaced by a value clamped to `[-1, 1]`. -/
lemma updateMousePosition_drift (sqrtf : ℚ → ℚ) (s : State) (smp : SensorSample)
    (t : TickTimes) :
    let s' := (updateMousePosition sqrtf s smp t).1
    s'.driftCorrectionX = s.driftCorrectionX ∧ s'.driftCorrectionY = s.driftCorrectionY ∧
    s'.enableDriftCorrection = s.enableDriftCorrection ∧
    (s'.gyroIntegralX = s.gyroIntegralX ∨
      (s.enableDriftCorrection = true ∧ ∃ a, s'.gyroIntegralX = constrain a (-1.0) 1.0)) ∧
    (s'.gyroIntegralY = s.gyroIntegralY ∨
      (s.enableDriftCorrection = true ∧ ∃ a, s'.gyroIntegralY = constrain a (-1.0) 1.0)) := by
  intro s'
  have hd := detectStillness_drift sqrtf s
    (smp.gyro.x - s.gyroOffsetX - s.driftCorrectionX)
    (smp.gyro.y - s.gyroOffsetY - s.driftCorrectionY)
    (smp.gyro.z - s.gyroOffsetZ) t.still
  obtain ⟨hf, he⟩ := hd
  simp only [driftFields, Prod.mk.injEq] at hf
  obtain ⟨h1, h2, h3, h4⟩ := hf
  simp only [s', updateMousePosition]
  by_cases hc : s.isCalibrated = true
  · by_cases hen : s.enableDriftCorrection = true
    · simp only [hc, Bool.not_true, Bool.false_eq_true, if_false, he, hen, if_true]
      split_ifs <;> simp [h1, h2] <;> exact ⟨Or.inr ⟨_, rfl⟩, Or.inr ⟨_, rfl⟩⟩
    · simp only [hc, Bool.not_true, Bool.false_eq_true, if_false, he, hen]
      simp only [Bool.not_eq_true] at hen
      split_ifs <;> simp [h1, h2, h3, h4, he, hen]
  · simp [hc]

lemma updateMousePosition_bounded (sqrtf : ℚ → ℚ) (s : State) (smp : SensorSample)
    (t : TickTimes) (h : DriftBounded s) :
    DriftBounded (updateMousePosition sqrtf s smp t).1 := by
  obtain ⟨h1, h2, h3, h4, h5⟩ := updateMousePosition_drift sqrtf s smp t
  obtain ⟨b1, b2, b3, b4⟩ := h
  refine ⟨?_, ?_, ?_, ?_⟩
  · rcases h4 with h4 | ⟨_, a, h4⟩
    · rw [h4]; exact b1
    · rw [h4]; exact constrain_mem a (by norm_num)
  · rcases h5 with h5 | ⟨_, a, h5⟩
    · rw [h5]; exact b2
    · rw [h5]; exact constrain_mem a (by norm_num)
  · rw [h1]; exact b3
  · rw [h2]; exact b4

lemma performDriftCorrection_bounded (s : State) (now : ℕ) (h : DriftBounded s) :
    DriftBounded (performDriftCorrection s now) := by
  obtain ⟨⟨b1, b1'⟩, ⟨b2, b2'⟩, b3, b4⟩ := h
  unfold performDriftCorrection
  split_ifs
  · exact ⟨⟨b1, b1'⟩, ⟨b2, b2'⟩, b3, b4⟩
  · refine ⟨⟨?_, ?_⟩, ⟨?_, ?_⟩, constrain_mem _ (by norm_num), constrain_mem _ (by norm_num)⟩
    · show (-1.0 : ℚ) ≤ s.gyroIntegralX * 0.5
      norm_num at b1 b1' ⊢; linarith
    · show s.gyroIntegralX * 0.5 ≤ (1.0 : ℚ)
      norm_num at b1 b1' ⊢; linarith
    · show (-1.0 : ℚ) ≤ s.gyroIntegralY * 0.5
      norm_num at b2 b2' ⊢; linarith
    · show s.gyroIntegralY * 0.5 ≤ (1.0 : ℚ)
      norm_num at b2 b2' ⊢; linarith
  · exact ⟨⟨b1, b1'⟩, ⟨b2, b2'⟩, b3, b4⟩

lemma driftBounded_of_zero {s : State} (h : DriftZero s) : DriftBounded s := by
  obtain ⟨h1, h2, h3, h4⟩ := h
  simp only [DriftBounded, h1, h2, h3, h4]
  norm_num

lemma calibrateGyro_zero (s : State) (samples : ℕ → Vec3) :
    DriftZero (calibrateGyro s samples) := by
  simp [DriftZero, calibrateGyro]

/-- A serial command either zeroes the four drift fields or keeps them. In the
second case the enable flag is kept or switched on. -/
lemma handleSerialCommands_drift (s : State) (input : Option Char) (samples : ℕ → Vec3) :
    let s' := handleSerialCommands s input samples
    DriftZero s' ∨ (driftFields s' = driftFields s ∧
      (s'.enableDriftCorrection = s.enableDriftCorrection ∨ s'.enableDriftCorrection = true)) := by
  intro s'
  simp only [s', handleSerialCommands]
  cases input with
  | none => right; simp
  | some cmd =>
    simp only []
    split_ifs with h1 h2 h3 h4 h5 h6 h7
    · left; exact calibrateGyro_zero s samples
    · left; simp [DriftZero]
    · right; simp at h3; simp [driftFields, h3]
    · left; simp [DriftZero]
    · right; simp [driftFields]
    · right; simp [driftFields]
    · right; simp [driftFields]
    · right; simp

lemma driftBounded_congr {s s' : State} (h : driftFields s' = driftFields s)
    (hb : DriftBounded s) : DriftBounded s' := by
  simp only [driftFields, Prod.mk.injEq] at h
  obtain ⟨h1, h2, h3, h4⟩ := h
  simpa only [DriftBounded, h1, h2, h3, h4] using hb

lemma Op.apply_bounded (sqrtf : ℚ → ℚ) (s : State) (op : Op) (h : DriftBounded s) :
    DriftBounded (op.apply sqrtf s) := by
  cases op with
  | update smp t => exact updateMousePosition_bounded sqrtf s smp t h
  | drift now => exact performDriftCorrection_bounded s now h
  | calibrate samples => exact driftBounded_of_zero (calibrateGyro_zero s samples)
  | serial cmd samples =>
    rcases handleSerialCommands_drift s (some cmd) samples with hz | ⟨hk, _⟩
    · exact driftBounded_of_zero hz
    · exact driftBounded_congr hk h

lemma run_bounded (sqrtf : ℚ → ℚ) (ops : List Op) :
    ∀ s : State, DriftBounded s → DriftBounded (run sqrtf s ops) := by
  induction ops with
  | nil => intro s h; exact h
  | cons op ops ih =>
    intro s h
    exact ih _ (Op.apply_bounded sqrtf s op h)

lemma performDriftCorrection_disabled (s : State) (now : ℕ) :
    (performDriftCorrection s now).enableDriftCorrection = s.enableDriftCorrection ∧
    (s.enableDriftCorrection = false → performDriftCorrection s now = s) := by
  unfold performDriftCorrection
  constructor
  · split_ifs <;> rfl
  · intro h
    simp [h]

lemma Op.apply_disabledZero (sqrtf : ℚ → ℚ) (s : State) (op : Op) (h : DisabledZero s) :
    DisabledZero (op.apply sqrtf s) := by
  cases op with
  | update smp t =>
    obtain ⟨h1, h2, h3, h4, h5⟩ := updateMousePosition_drift sqrtf s smp t
    intro hoff
    have hs : s.enableDriftCorrection = false := by rw [← h3]; exact hoff
    obtain ⟨z1, z2, z3, z4⟩ := h hs
    refine ⟨h1.trans z1, h2.trans z2, ?_, ?_⟩
    · rcases h4 with h4 | ⟨hon, _⟩
      · exact h4.trans z3
      · rw [hs] at hon; cases hon
    · rcases h5 with h5 | ⟨hon, _⟩
      · exact h5.trans z4
      · rw [hs] at hon; cases hon
  | drift now =>
    obtain ⟨h1, h2⟩ := performDriftCorrection_disabled s now
    intro hoff
    have hs : s.enableDriftCorrection = false := by rw [← h1]; exact hoff
    show DriftZero (performDriftCorrection s now)
    rw [h2 hs]
    exact h hs
  | calibrate samples => exact fun _ => calibrateGyro_zero s samples
  | serial cmd samples =>
    rcases handleSerialCommands_drift s (some cmd) samples with hz | ⟨hk, he | he⟩
    · exact fun _ => hz
    · intro hoff
      have hs : s.enableDriftCorrection = false := by rw [← he]; exact hoff
      obtain ⟨z1, z2, z3, z4⟩ := h hs
      simp only [driftFields, Prod.mk.injEq] at hk
      exact ⟨hk.1.trans z1, hk.2.1.trans z2, hk.2.2.1.trans z3, hk.2.2.2.trans z4⟩
    · intro hoff
      have hoff' : (handleSerialCommands s (some cmd) samples).enableDriftCorrection = false :=
        hoff
      rw [he] at hoff'; cases hoff'

lemma run_disabledZero (sqrtf : ℚ → ℚ) (ops : List Op) :
    ∀ s : State, DisabledZero s → DisabledZero (run sqrtf s ops) := by
  induction ops with
  | nil => intro s h; exact h
  | cons op ops ih =>
    intro s h
    exact ih _ (Op.apply_disabledZero sqrtf s op h)

/-! ## Theorems for the claims -/

/-- C1: from the initial state, after any finite sequence of
`updateMousePosition`, `performDriftCorrection`, `calibrateGyro` and serial
commands (any character, any sensor samples, any timestamps), the two
integrals lie in `[-1, 1]` and the two drift corrections in `[-0.1, 0.1]`. -/
theorem clamp_invariant (sqrtf : ℚ → ℚ) (ops : List Op) :
    (-1.0 ≤ (run sqrtf initialState ops).gyroIntegralX ∧
      (run sqrtf initialState ops).gyroIntegralX ≤ 1.0) ∧
    (-1.0 ≤ (run sqrtf initialState ops).gyroIntegralY ∧
      (run sqrtf initialState ops).gyroIntegralY ≤ 1.0) ∧
    (-0.1 ≤ (run sqrtf initialState ops).driftCorrectionX ∧
      (run sqrtf initialState ops).driftCorrectionX ≤ 0.1) ∧
    (-0.1 ≤ (run sqrtf initialState ops).driftCorrectionY ∧
      (run sqrtf initialState ops).driftCorrectionY ≤ 0.1) :=
  run_bounded sqrtf ops initialState
    (driftBounded_of_zero ⟨rfl, rfl, rfl, rfl⟩)

/-- C7: in every state reached from the initial state by a finite sequence of
`updateMousePosition`, `performDriftCorrection`, `calibrateGyro` and serial
commands, if `enableDriftCorrection` is false then both integrals and both
drift corrections are zero. -/
theorem disabled_implies_zero (sqrtf : ℚ → ℚ) (ops : List Op)
    (h : (run sqrtf initialState ops).enableDriftCorrection = false) :
    (run sqrtf initialState ops).gyroIntegralX = 0 ∧
    (run sqrtf initialState ops).gyroIntegralY = 0 ∧
    (run sqrtf initialState ops).driftCorrectionX = 0 ∧
    (run sqrtf initialState ops).driftCorrectionY = 0 := by
  have hinit : DisabledZero initialState := fun hoff => by cases hoff
  obtain ⟨z1, z2, z3, z4⟩ := run_disabledZero sqrtf ops initialState hinit h
  exact ⟨z3, z4, z1, z2⟩

/-- Witness for C7: switching drift correction off right after start-up. -/
theorem disabled_implies_zero_witness :
    (run Rat.sqrt initialState
      [Op.calibrate (fun _ => ⟨0.01, 0, 0⟩), Op.serial 't' (fun _ => ⟨0, 0, 0⟩)]
      ).enableDriftCorrection = false ∧
    ((run Rat.sqrt initialState
      [Op.calibrate (fun _ => ⟨0.01, 0, 0⟩), Op.serial 't' (fun _ => ⟨0, 0, 0⟩)]).gyroIntegralX = 0 ∧
    (run Rat.sqrt initialState
      [Op.calibrate (fun _ => ⟨0.01, 0, 0⟩), Op.serial 't' (fun _ => ⟨0, 0, 0⟩)]).gyroIntegralY = 0 ∧
    (run Rat.sqrt initialState
      [Op.calibrate (fun _ => ⟨0.01, 0, 0⟩), Op.serial 't' (fun _ => ⟨0, 0, 0⟩)]).driftCorrectionX = 0 ∧
    (run Rat.sqrt initialState
      [Op.calibrate (fun _ => ⟨0.01, 0, 0⟩), Op.serial 't' (fun _ => ⟨0, 0, 0⟩)]).driftCorrectionY = 0) :=
  ⟨by decide, disabled_implies_zero Rat.sqrt _ (by decide)⟩

/-- C6: whatever the previous values, the four drift fields are exactly zero
after `calibrateGyro` (for any samples), after the command `t` when drift
correction was enabled (so that the command turns it off), and after the
command `z`. -/
theorem drift_reset (s : State) (samples : ℕ → Vec3) :
    driftFields (calibrateGyro s samples) = (0, 0, 0, 0) ∧
    (s.enableDriftCorrection = true →
      (handleSerialCommands s (some 't') samples).enableDriftCorrection = false ∧
      driftFields (handleSerialCommands s (some 't') samples) = (0, 0, 0, 0)) ∧
    driftFields (handleSerialCommands s (some 'z') samples) = (0, 0, 0, 0) := by
  refine ⟨?_, ?_, ?_⟩
  · simp [driftFields, calibrateGyro]
  · intro h
    simp [driftFields, handleSerialCommands, h]
  · simp [driftFields, handleSerialCommands]

/-- Witness for C6 at a state with accumulated drift. -/
theorem drift_reset_witness :
    driftedState.enableDriftCorrection = true ∧
    (handleSerialCommands driftedState (some 't') (fun _ => ⟨0, 0, 0⟩)).enableDriftCorrection
      = false ∧
    driftFields (handleSerialCommands driftedState (some 't') (fun _ => ⟨0, 0, 0⟩))
      = (0, 0, 0, 0) :=
  ⟨rfl, (drift_reset driftedState (fun _ => ⟨0, 0, 0⟩)).2.1 rfl⟩

/-- C3: if `performDriftCorrection` changes any of the four drift fields then
the device is flagged still and at least 3000 ms have passed since
`stillStartTime`; in every other case the four fields are unchanged, and when
`isDeviceStill` is false the call changes nothing at all. -/
theorem drift_correction_gated (s : State) (now : ℕ) :
    (driftFields (performDriftCorrection s now) ≠ driftFields s →
      s.isDeviceStill = true ∧ 3000 ≤ millisDiff now s.stillStartTime) ∧
    (¬ (s.isDeviceStill = true ∧ 3000 ≤ millisDiff now s.stillStartTime) →
      driftFields (performDriftCorrection s now) = driftFields s) ∧
    (s.isDeviceStill = false → performDriftCorrection s now = s) := by
  have key : ¬ (s.isDeviceStill = true ∧ 3000 ≤ millisDiff now s.stillStartTime) →
      performDriftCorrection s now = s := by
    intro h
    unfold performDriftCorrection
    split_ifs with h1 h2
    · rfl
    · exact absurd ⟨h2.1, le_of_lt h2.2⟩ h
    · rfl
  refine ⟨?_, ?_, ?_⟩
  · intro hne
    by_contra hcon
    exact hne (by rw [key hcon])
  · intro h
    rw [key h]
  · intro h
    exact key (fun hh => by rw [h] at hh; cases hh.1)

/-- Witness for C3: a correction that does change the fields happens in a
state flagged still, 5000 ms after the still period began. -/
theorem drift_correction_gated_witness :
    driftFields (performDriftCorrection driftedState 5000) ≠ driftFields driftedState ∧
    driftedState.isDeviceStill = true ∧
    3000 ≤ millisDiff 5000 driftedState.stillStartTime := by
  have hne : driftFields (performDriftCorrection driftedState 5000)
      ≠ driftFields driftedState := by
    simp [driftFields, performDriftCorrection, driftedState, initialState, millisDiff,
      stillDuration, constrain]
    norm_num
  exact ⟨hne, (drift_correction_gated driftedState 5000).1 hne⟩

/-- C10: with drift correction enabled, the system calibrated, the device
flagged still and more than 3000 ms since `stillStartTime`,
`performDriftCorrection` sets each correction to
`clamp (correction + 0.1 * integral) (-0.1) 0.1`, using the integral from
before the decay, halves each integral, and changes nothing else. -/
theorem drift_correction_step (s : State) (now : ℕ)
    (he : s.enableDriftCorrection = true) (hc : s.isCalibrated = true)
    (hs : s.isDeviceStill = true) (ht : millisDiff now s.stillStartTime > 3000) :
    performDriftCorrection s now =
      { s with
        driftCorrectionX := constrain (s.driftCorrectionX + 0.1 * s.gyroIntegralX) (-0.1) 0.1
        driftCorrectionY := constrain (s.driftCorrectionY + 0.1 * s.gyroIntegralY) (-0.1) 0.1
        gyroIntegralX := 0.5 * s.gyroIntegralX
        gyroIntegralY := 0.5 * s.gyroIntegralY } := by
  have ht' : millisDiff now s.stillStartTime > stillDuration := ht
  unfold performDriftCorrection
  simp only [he, hc, hs, ht', Bool.not_true, Bool.or_self, Bool.false_eq_true, if_false,
    and_self, if_true]
  rw [mul_comm s.gyroIntegralX 0.1, mul_comm s.gyroIntegralY 0.1,
    mul_comm s.gyroIntegralX 0.5, mul_comm s.gyroIntegralY 0.5]

/-- Witness for C10: the step at `driftedState`, 3001 ms into the still
period; the X correction saturates at 0.1. -/
theorem drift_correction_step_witness :
    driftedState.enableDriftCorrection = true ∧ driftedState.isCalibrated = true ∧
    driftedState.isDeviceStill = true ∧
    millisDiff 3001 driftedState.stillStartTime > 3000 ∧
    performDriftCorrection driftedState 3001 =
      { driftedState with
        driftCorrectionX :=
          constrain (driftedState.driftCorrectionX + 0.1 * driftedState.gyroIntegralX) (-0.1) 0.1
        driftCorrectionY :=
          constrain (driftedState.driftCorrectionY + 0.1 * driftedState.gyroIntegralY) (-0.1) 0.1
        gyroIntegralX := 0.5 * driftedState.gyroIntegralX
        gyroIntegralY := 0.5 * driftedState.gyroIntegralY } :=
  ⟨rfl, rfl, rfl, by decide,
    drift_correction_step driftedState 3001 rfl rfl rfl (by decide)⟩

lemma ratSqrt_of_sq {v q : ℚ} (h : v = q * q) (hq : 0 ≤ q) : Rat.sqrt v = q := by
  rw [h, Rat.sqrt_eq, abs_of_nonneg hq]

lemma toInt_eq {f : ℚ} {n : ℤ}
    (h : (0 ≤ f ∧ (n : ℚ) ≤ f ∧ f < n + 1) ∨ (f < 0 ∧ (n : ℚ) - 1 < f ∧ f ≤ n)) :
    toInt f = n := by
  unfold toInt
  rcases h with ⟨h0, h1, h2⟩ | ⟨h0, h1, h2⟩
  · rw [if_pos h0]
    exact Int.floor_eq_iff.mpr ⟨h1, h2⟩
  · rw [if_neg (not_le.mpr h0)]
    exact Int.ceil_eq_iff.mpr ⟨h1, h2⟩

lemma toInt_zero : toInt 0 = 0 := by
  simp [toInt]

lemma scenario_not_still :
    stillAfter Rat.sqrt scenarioState scenarioSample ⟨1000, 1000, 1000⟩ = false := by
  have h : Rat.sqrt ((0.1 - 0.05 - 0) * (0.1 - 0.05 - 0) + (0 - 0 - 0) * (0 - 0 - 0)
      + (0 - 0) * (0 - 0)) = 0.05 := ratSqrt_of_sq (by norm_num) (by norm_num)
  simp only [stillAfter, detectStillness, correctedGyro, scenarioState, scenarioSample,
    initialState, h, movementThreshold]
  norm_num

lemma scenario_events :
    (updateMousePosition Rat.sqrt scenarioState scenarioSample ⟨1000, 1000, 1000⟩).2
      = [Event.move 0 (-1)] := by
  have hx : deadzoned (activeDeadzone false) (correctedGyro scenarioState scenarioSample).x
      = 0.05 := by
    simp only [deadzoned, activeDeadzone, correctedGyro, scenarioState, scenarioSample,
      initialState]
    norm_num [abs_lt]
  have hy : deadzoned (activeDeadzone false) (correctedGyro scenarioState scenarioSample).y
      = 0 := by
    simp [deadzoned, activeDeadzone, correctedGyro, scenarioState, scenarioSample, initialState]
  have hz : deadzoned (activeDeadzone false) (correctedGyro scenarioState scenarioSample).z
      = 0 := by
    simp [deadzoned, activeDeadzone, correctedGyro, scenarioState, scenarioSample, initialState]
  have hs : scenarioState.mousesensitivity = 3.0 := rfl
  have hty : toInt (-(0.05 : ℚ) * 3.0 * 12) = -1 := toInt_eq (Or.inr (by norm_num))
  have ha : accelMagnitude Rat.sqrt scenarioSample = 9.8 :=
    ratSqrt_of_sq (by simp only [scenarioSample]; norm_num) (by norm_num)
  have hl : scenarioState.lastAccelMagnitude = 9.8 := rfl
  rw [updateMousePosition_events Rat.sqrt scenarioState scenarioSample _ rfl,
    scenario_not_still, hx, hy, hz, hs, hty, ha, hl]
  simp [toInt_zero, constrain]
  intro h
  norm_num at h

/-- Counterexample for C2: in the scenario of the claim the corrected and
deadzoned X rate is 0.05 and rounding to nearest would give `dy = -2`, but
the tick emits the move `(0, -1)`. -/
theorem cursor_delta_round_counterexample :
    deadzoned (activeDeadzone
        (stillAfter Rat.sqrt scenarioState scenarioSample ⟨1000, 1000, 1000⟩))
      (correctedGyro scenarioState scenarioSample).x = 0.05 ∧
    constrain (round (-(0.05 : ℚ) * scenarioState.mousesensitivity * 12)) (-25) 25 = -2 ∧
    (updateMousePosition Rat.sqrt scenarioState scenarioSample ⟨1000, 1000, 1000⟩).2
      = [Event.move 0 (-1)] ∧
    Event.move 0 (-2) ∉
      (updateMousePosition Rat.sqrt scenarioState scenarioSample ⟨1000, 1000, 1000⟩).2 := by
  refine ⟨?_, ?_, scenario_events, ?_⟩
  · rw [scenario_not_still]
    simp only [deadzoned, activeDeadzone, correctedGyro, scenarioState, scenarioSample,
      initialState]
    norm_num [abs_lt]
  · have hr : round (-(0.05 : ℚ) * scenarioState.mousesensitivity * 12) = -2 := by
      rw [round_eq, Int.floor_eq_iff]
      simp only [scenarioState, initialState]
      norm_num
    rw [hr]
    decide
  · rw [scenario_events]
    decide

/-- C2 (amended): for a calibrated system, with `gx`, `gy` the corrected and
deadzoned X and Y rates, a tick emits the move `(dx, dy)` exactly when
`dx = clamp (trunc (gy * sensitivity * 12)) (-25) 25`,
`dy = clamp (trunc (-gx * sensitivity * 12)) (-25) 25` and one of them is
nonzero, where `trunc` is the cast to `int`, which truncates toward zero. -/
theorem cursor_delta_truncates (sqrtf : ℚ → ℚ) (s : State) (smp : SensorSample)
    (t : TickTimes) (hc : s.isCalibrated = true) (dx dy : ℤ) :
    Event.move dx dy ∈ (updateMousePosition sqrtf s smp t).2 ↔
      (dx = constrain (toInt (deadzoned (activeDeadzone (stillAfter sqrtf s smp t))
              (correctedGyro s smp).y * s.mousesensitivity * 12)) (-25) 25 ∧
        dy = constrain (toInt (-deadzoned (activeDeadzone (stillAfter sqrtf s smp t))
              (correctedGyro s smp).x * s.mousesensitivity * 12)) (-25) 25 ∧
        (dx ≠ 0 ∨ dy ≠ 0)) :=
  updateMousePosition_move_iff sqrtf s smp t hc dx dy

lemma scenario_dx :
    (0 : ℤ) = constrain (toInt (deadzoned (activeDeadzone
      (stillAfter Rat.sqrt scenarioState scenarioSample ⟨1000, 1000, 1000⟩))
      (correctedGyro scenarioState scenarioSample).y
      * scenarioState.mousesensitivity * 12)) (-25) 25 := by
  have hy : deadzoned (activeDeadzone false) (correctedGyro scenarioState scenarioSample).y
      = 0 := by
    simp [deadzoned, activeDeadzone, correctedGyro, scenarioState, scenarioSample, initialState]
  rw [scenario_not_still, hy, zero_mul, zero_mul, toInt_zero]
  decide

lemma scenario_dy :
    (-1 : ℤ) = constrain (toInt (-deadzoned (activeDeadzone
      (stillAfter Rat.sqrt scenarioState scenarioSample ⟨1000, 1000, 1000⟩))
      (correctedGyro scenarioState scenarioSample).x
      * scenarioState.mousesensitivity * 12)) (-25) 25 := by
  have hx : deadzoned (activeDeadzone false) (correctedGyro scenarioState scenarioSample).x
      = 0.05 := by
    simp only [deadzoned, activeDeadzone, correctedGyro, scenarioState, scenarioSample,
      initialState]
    norm_num [abs_lt]
  have hs : scenarioState.mousesensitivity = 3.0 := rfl
  have hty : toInt (-(0.05 : ℚ) * 3.0 * 12) = -1 := toInt_eq (Or.inr (by norm_num))
  rw [scenario_not_still, hx, hs, hty]
  decide

/-- Witness for C2 (amended): in the scenario of the claim the move emitted
is `(0, -1)`. -/
theorem cursor_delta_truncates_witness :
    scenarioState.isCalibrated = true ∧
    Event.move 0 (-1) ∈
      (updateMousePosition Rat.sqrt scenarioState scenarioSample ⟨1000, 1000, 1000⟩).2 :=
  ⟨rfl, (cursor_delta_truncates Rat.sqrt scenarioState scenarioSample ⟨1000, 1000, 1000⟩
    rfl 0 (-1)).mpr ⟨scenario_dx, scenario_dy, Or.inr (by decide)⟩⟩

lemma accelMagnitude_jolt : accelMagnitude Rat.sqrt joltSample = 14.8 :=
  ratSqrt_of_sq (by simp only [joltSample]; norm_num) (by norm_num)

lemma accelMagnitude_rest : accelMagnitude Rat.sqrt restSample = 9.8 :=
  ratSqrt_of_sq (by simp only [restSample]; norm_num) (by norm_num)

/-- Counterexample for C5: a jolt of 5.0 arriving exactly 400 ms after the
previous tap does not click. -/
theorem tap_at_400_counterexample :
    tapState.isCalibrated = true ∧
    |accelMagnitude Rat.sqrt joltSample - tapState.lastAccelMagnitude| > 4.0 ∧
    400 ≤ millisDiff 1400 tapState.lastTapTime ∧
    Event.click ∉ (updateMousePosition Rat.sqrt tapState joltSample ⟨1400, 1400, 1400⟩).2 := by
  have hl : tapState.lastAccelMagnitude = 9.8 := rfl
  have ht : millisDiff 1400 tapState.lastTapTime = 400 := by decide
  refine ⟨rfl, ?_, by decide, ?_⟩
  · rw [accelMagnitude_jolt, hl]
    norm_num [abs_of_pos]
  · rw [(updateMousePosition_click Rat.sqrt tapState joltSample _ rfl).1]
    show ¬ (_ ∧ millisDiff 1400 tapState.lastTapTime > 400)
    rw [ht]
    exact fun h => absurd h.2 (by decide)

/-- C5 (amended): a tick of a calibrated system clicks exactly when the
acceleration magnitude differs from the previous one by more than 4.0 and
more than 400 ms have elapsed since `lastTapTime`; on a click `lastTapTime`
becomes the time read after the click, otherwise it is unchanged; in both
cases `lastAccelMagnitude` becomes the current magnitude. -/
theorem tap_decision_rule (sqrtf : ℚ → ℚ) (s : State) (smp : SensorSample) (t : TickTimes)
    (hc : s.isCalibrated = true) :
    (Event.click ∈ (updateMousePosition sqrtf s smp t).2 ↔
      (|accelMagnitude sqrtf smp - s.lastAccelMagnitude| > 4.0 ∧
        millisDiff t.tapCheck s.lastTapTime > 400)) ∧
    (Event.click ∈ (updateMousePosition sqrtf s smp t).2 →
      (updateMousePosition sqrtf s smp t).1.lastTapTime = t.tapStamp) ∧
    (Event.click ∉ (updateMousePosition sqrtf s smp t).2 →
      (updateMousePosition sqrtf s smp t).1.lastTapTime = s.lastTapTime) ∧
    (updateMousePosition sqrtf s smp t).1.lastAccelMagnitude = accelMagnitude sqrtf smp := by
  obtain ⟨hiff, _⟩ := updateMousePosition_click sqrtf s smp t hc
  obtain ⟨hm, ht⟩ := updateMousePosition_tapState sqrtf s smp t hc
  refine ⟨hiff, ?_, ?_, hm⟩
  · intro h
    rw [ht, if_pos (hiff.mp h)]
  · intro h
    rw [ht, if_neg (fun htap => h (hiff.mpr htap))]

/-- Witness for C5 (amended): the same jolt 401 ms after the previous tap
clicks and stamps `lastTapTime` with the time read after the click. -/
theorem tap_decision_rule_witness :
    tapState.isCalibrated = true ∧
    Event.click ∈ (updateMousePosition Rat.sqrt tapState joltSample ⟨1401, 1401, 1402⟩).2 ∧
    (updateMousePosition Rat.sqrt tapState joltSample ⟨1401, 1401, 1402⟩).1.lastTapTime
      = 1402 := by
  have hl : tapState.lastAccelMagnitude = 9.8 := rfl
  have hclick : Event.click ∈
      (updateMousePosition Rat.sqrt tapState joltSample ⟨1401, 1401, 1402⟩).2 := by
    rw [(updateMousePosition_click Rat.sqrt tapState joltSample _ rfl).1,
      accelMagnitude_jolt, hl]
    exact ⟨by norm_num [abs_of_pos], by decide⟩
  exact ⟨rfl, hclick,
    (tap_decision_rule Rat.sqrt tapState joltSample ⟨1401, 1401, 1402⟩ rfl).2.1 hclick⟩

/-- C4: take two ticks, each seeing the acceleration
magnitude jump by 5.0 from the previous tick, the first of which clicks. If
the tap condition of the second tick is evaluated 401 ms after the first
click was stamped, the second tick clicks and the two ticks give two clicks;
at 399 ms the second tick does not click and the two ticks give one click. -/
theorem tap_refractory_window (sqrtf : ℚ → ℚ) (s : State) (smp1 smp2 : SensorSample)
    (t1 t2 : TickTimes)
    (_hj1 : |accelMagnitude sqrtf smp1 - s.lastAccelMagnitude| = 5.0)
    (hj2 : |accelMagnitude sqrtf smp2 - accelMagnitude sqrtf smp1| = 5.0)
    (h1 : Event.click ∈ (updateMousePosition sqrtf s smp1 t1).2) :
    (millisDiff t2.tapCheck t1.tapStamp = 401 →
      Event.click ∈
        (updateMousePosition sqrtf (updateMousePosition sqrtf s smp1 t1).1 smp2 t2).2 ∧
      clicks ((updateMousePosition sqrtf s smp1 t1).2 ++
        (updateMousePosition sqrtf (updateMousePosition sqrtf s smp1 t1).1 smp2 t2).2) = 2) ∧
    (millisDiff t2.tapCheck t1.tapStamp = 399 →
      Event.click ∉
        (updateMousePosition sqrtf (updateMousePosition sqrtf s smp1 t1).1 smp2 t2).2 ∧
      clicks ((updateMousePosition sqrtf s smp1 t1).2 ++
        (updateMousePosition sqrtf (updateMousePosition sqrtf s smp1 t1).1 smp2 t2).2) = 1) := by
  have hc : s.isCalibrated = true := by
    by_contra hcon
    simp [updateMousePosition, hcon] at h1
  have hc1 : (updateMousePosition sqrtf s smp1 t1).1.isCalibrated = true := by
    rw [updateMousePosition_isCalibrated]; exact hc
  obtain ⟨hiff1, hcnt1⟩ := updateMousePosition_click sqrtf s smp1 t1 hc
  obtain ⟨hm, ht⟩ := updateMousePosition_tapState sqrtf s smp1 t1 hc
  obtain ⟨hiff2, hcnt2⟩ := updateMousePosition_click sqrtf _ smp2 t2 hc1
  have htap1 := hiff1.mp h1
  rw [if_pos htap1] at ht hcnt1
  rw [hm, ht] at hiff2 hcnt2
  have hbig : |accelMagnitude sqrtf smp2 - accelMagnitude sqrtf smp1| > 4.0 := by
    rw [hj2]; norm_num
  constructor
  · intro hd
    have htap2 : |accelMagnitude sqrtf smp2 - accelMagnitude sqrtf smp1| > 4.0 ∧
        millisDiff t2.tapCheck t1.tapStamp > 400 := ⟨hbig, by rw [hd]; decide⟩
    refine ⟨hiff2.mpr htap2, ?_⟩
    have hsplit : clicks ((updateMousePosition sqrtf s smp1 t1).2 ++
        (updateMousePosition sqrtf (updateMousePosition sqrtf s smp1 t1).1 smp2 t2).2)
        = clicks (updateMousePosition sqrtf s smp1 t1).2 +
          clicks (updateMousePosition sqrtf (updateMousePosition sqrtf s smp1 t1).1
            smp2 t2).2 := by
      simp only [clicks, List.count_append]
    rw [hsplit, hcnt1, hcnt2, if_pos htap2]
  · intro hd
    have htap2 : ¬ (|accelMagnitude sqrtf smp2 - accelMagnitude sqrtf smp1| > 4.0 ∧
        millisDiff t2.tapCheck t1.tapStamp > 400) := by
      rintro ⟨_, hgt⟩
      rw [hd] at hgt
      exact absurd hgt (by decide)
    refine ⟨fun h => htap2 (hiff2.mp h), ?_⟩
    have hsplit : clicks ((updateMousePosition sqrtf s smp1 t1).2 ++
        (updateMousePosition sqrtf (updateMousePosition sqrtf s smp1 t1).1 smp2 t2).2)
        = clicks (updateMousePosition sqrtf s smp1 t1).2 +
          clicks (updateMousePosition sqrtf (updateMousePosition sqrtf s smp1 t1).1
            smp2 t2).2 := by
      simp only [clicks, List.count_append]
    rw [hsplit, hcnt1, hcnt2, if_neg htap2]

/-- Witness for C4: a jolt at time 2000 that clicks, then a return to rest
401 ms later: two clicks. -/
theorem tap_refractory_window_witness :
    |accelMagnitude Rat.sqrt joltSample - tapState.lastAccelMagnitude| = 5.0 ∧
    |accelMagnitude Rat.sqrt restSample - accelMagnitude Rat.sqrt joltSample| = 5.0 ∧
    Event.click ∈ (updateMousePosition Rat.sqrt tapState joltSample ⟨2000, 2000, 2000⟩).2 ∧
    millisDiff 2401 2000 = 401 ∧
    clicks ((updateMousePosition Rat.sqrt tapState joltSample ⟨2000, 2000, 2000⟩).2 ++
      (updateMousePosition Rat.sqrt
        (updateMousePosition Rat.sqrt tapState joltSample ⟨2000, 2000, 2000⟩).1
        restSample ⟨2401, 2401, 2401⟩).2) = 2 := by
  have hl : tapState.lastAccelMagnitude = 9.8 := rfl
  have hj1 : |accelMagnitude Rat.sqrt joltSample - tapState.lastAccelMagnitude| = 5.0 := by
    rw [accelMagnitude_jolt, hl]; norm_num [abs_of_pos]
  have hj2 : |accelMagnitude Rat.sqrt restSample - accelMagnitude Rat.sqrt joltSample|
      = 5.0 := by
    rw [accelMagnitude_jolt, accelMagnitude_rest]; norm_num [abs_of_neg]
  have hclick : Event.click ∈
      (updateMousePosition Rat.sqrt tapState joltSample ⟨2000, 2000, 2000⟩).2 := by
    rw [(updateMousePosition_click Rat.sqrt tapState joltSample _ rfl).1]
    exact ⟨by rw [hj1]; norm_num, by decide⟩
  exact ⟨hj1, hj2, hclick, by decide,
    ((tap_refractory_window Rat.sqrt tapState joltSample restSample ⟨2000, 2000, 2000⟩
      ⟨2401, 2401, 2401⟩ hj1 hj2 hclick).1 (by decide)).2⟩

/-- C9: for a calibrated system, with the active deadzone 0.04 when the
device is flagged still after the stillness update of this tick and 0.02
otherwise: if the corrected X rate is below the active deadzone every emitted
move has `dy = 0`; if the corrected Y rate is below it every emitted move has
`dx = 0`; if both are below it no move event is emitted. -/
theorem deadzone_suppresses_motion (sqrtf : ℚ → ℚ) (s : State) (smp : SensorSample)
    (t : TickTimes) (hc : s.isCalibrated = true) :
    (|(correctedGyro s smp).x| < activeDeadzone (stillAfter sqrtf s smp t) →
      ∀ dx dy, Event.move dx dy ∈ (updateMousePosition sqrtf s smp t).2 → dy = 0) ∧
    (|(correctedGyro s smp).y| < activeDeadzone (stillAfter sqrtf s smp t) →
      ∀ dx dy, Event.move dx dy ∈ (updateMousePosition sqrtf s smp t).2 → dx = 0) ∧
    (|(correctedGyro s smp).x| < activeDeadzone (stillAfter sqrtf s smp t) →
      |(correctedGyro s smp).y| < activeDeadzone (stillAfter sqrtf s smp t) →
      ∀ dx dy, Event.move dx dy ∉ (updateMousePosition sqrtf s smp t).2) := by
  have hx : |(correctedGyro s smp).x| < activeDeadzone (stillAfter sqrtf s smp t) →
      ∀ dx dy, Event.move dx dy ∈ (updateMousePosition sqrtf s smp t).2 → dy = 0 := by
    intro h dx dy hmem
    obtain ⟨_, h2, _⟩ := (updateMousePosition_move_iff sqrtf s smp t hc dx dy).mp hmem
    rw [h2, deadzoned_of_lt h, neg_zero, zero_mul, zero_mul, toInt_zero]
    exact constrain_zero_cursor
  have hy : |(correctedGyro s smp).y| < activeDeadzone (stillAfter sqrtf s smp t) →
      ∀ dx dy, Event.move dx dy ∈ (updateMousePosition sqrtf s smp t).2 → dx = 0 := by
    intro h dx dy hmem
    obtain ⟨h1, _, _⟩ := (updateMousePosition_move_iff sqrtf s smp t hc dx dy).mp hmem
    rw [h1, deadzoned_of_lt h, zero_mul, zero_mul, toInt_zero]
    exact constrain_zero_cursor
  refine ⟨hx, hy, ?_⟩
  intro h1 h2 dx dy hmem
  obtain ⟨_, _, hnz⟩ := (updateMousePosition_move_iff sqrtf s smp t hc dx dy).mp hmem
  rcases hnz with hnz | hnz
  · exact hnz (hy h2 dx dy hmem)
  · exact hnz (hx h1 dx dy hmem)

/-- Witness for C9: at `tiltSample` the X rate is inside the active deadzone
and every emitted move has `dy = 0`. -/
theorem deadzone_suppresses_motion_witness :
    scenarioState.isCalibrated = true ∧
    |(correctedGyro scenarioState tiltSample).x| <
      activeDeadzone (stillAfter Rat.sqrt scenarioState tiltSample ⟨1000, 1000, 1000⟩) ∧
    (∀ dx dy, Event.move dx dy ∈
      (updateMousePosition Rat.sqrt scenarioState tiltSample ⟨1000, 1000, 1000⟩).2 →
      dy = 0) := by
  have h : |(correctedGyro scenarioState tiltSample).x| <
      activeDeadzone (stillAfter Rat.sqrt scenarioState tiltSample ⟨1000, 1000, 1000⟩) := by
    have hx : (correctedGyro scenarioState tiltSample).x = 0.01 := by
      simp only [correctedGyro, scenarioState, tiltSample, initialState]
      norm_num
    rw [hx]
    cases stillAfter Rat.sqrt scenarioState tiltSample ⟨1000, 1000, 1000⟩ <;>
      norm_num [activeDeadzone, abs_lt]
  exact ⟨rfl, h,
    (deadzone_suppresses_motion Rat.sqrt scenarioState tiltSample ⟨1000, 1000, 1000⟩ rfl).1 h⟩

lemma loopPrologue_stale (c : Bool) :
    loopPrologue staleStillState (iterationAt40000 c) =
      { staleStillState with wasConnectedBefore := c, lastConnectionCheck := 40000 } := by
  have h : millisDiff 40000 0 > 2000 := by decide
  cases c <;>
    simp [loopPrologue, handleSerialCommands, iterationAt40000, staleStillState, initialState, h]

lemma moving_not_still (c : Bool) :
    stillAfter Rat.sqrt (loopPrologue staleStillState (iterationAt40000 c))
      (iterationAt40000 c).sample (iterationAt40000 c).tick = false := by
  have h : Rat.sqrt ((1 - 0 - 0) * (1 - 0 - 0) + (0 - 0 - 0) * (0 - 0 - 0)
      + (0 - 0) * (0 - 0)) = 1 := ratSqrt_of_sq (by norm_num) (by norm_num)
  rw [loopPrologue_stale]
  simp only [stillAfter, detectStillness, correctedGyro, iterationAt40000, movingSample,
    staleStillState, initialState, h, movementThreshold]
  norm_num

/-- Counterexample for C8: with the BLE host not connected, an iteration runs
`performDriftCorrection` without `updateMousePosition`; the sample of this
iteration is in motion, yet the correction is applied on the stillness flag
left by an earlier tick. -/
theorem stale_stillness_counterexample :
    Call.performDriftCorrection ∈ (loop Rat.sqrt staleStillState (iterationAt40000 false)).2.2 ∧
    Call.updateMousePosition ∉ (loop Rat.sqrt staleStillState (iterationAt40000 false)).2.2 ∧
    stillAfter Rat.sqrt (loopPrologue staleStillState (iterationAt40000 false))
      (iterationAt40000 false).sample (iterationAt40000 false).tick = false ∧
    (loop Rat.sqrt staleStillState (iterationAt40000 false)).1.driftCorrectionX
      ≠ staleStillState.driftCorrectionX := by
  have hl : loop Rat.sqrt staleStillState (iterationAt40000 false) =
      ({ performDriftCorrection (loopPrologue staleStillState (iterationAt40000 false)) 40000
          with lastDriftCorrection := 40000 }, [], [Call.performDriftCorrection]) := by
    rw [loop_eq, if_neg (by simp [iterationAt40000]), if_pos]
    · rfl
    · rw [loopPrologue_stale]
      exact ⟨rfl, by decide⟩
  refine ⟨?_, ?_, moving_not_still false, ?_⟩
  · rw [hl]; decide
  · rw [hl]; decide
  · rw [hl, loopPrologue_stale]
    have h : millisDiff 40000 0 > 3000 := by decide
    simp [performDriftCorrection, staleStillState, initialState, stillDuration, h, constrain]
    norm_num

/-- C8 (amended): in an iteration of `loop` that runs `performDriftCorrection`
there are two cases. Either `updateMousePosition` also runs, and then it runs
first, so that `performDriftCorrection` is applied to the state it left,
stillness included; or `updateMousePosition` does not run (the BLE host is
not connected, or at most 20 ms have passed since `lastUpdate`), and then
`performDriftCorrection` is applied to the state as it stood after the serial
and connection handling, with the stillness fields of an earlier tick. -/
theorem drift_correction_ordering (sqrtf : ℚ → ℚ) (s : State) (i : LoopInput)
    (h : Call.performDriftCorrection ∈ (loop sqrtf s i).2.2) :
    ((i.connected = true ∧ millisDiff i.currentTime (loopPrologue s i).lastUpdate > 20) ∧
      (loop sqrtf s i).2.2 = [Call.updateMousePosition, Call.performDriftCorrection] ∧
      (loop sqrtf s i).1 =
        { performDriftCorrection
            { (updateMousePosition sqrtf (loopPrologue s i) i.sample i.tick).1 with
              lastUpdate := i.currentTime } i.driftNow with
          lastDriftCorrection := i.currentTime }) ∨
    (¬ (i.connected = true ∧ millisDiff i.currentTime (loopPrologue s i).lastUpdate > 20) ∧
      (loop sqrtf s i).2.2 = [Call.performDriftCorrection] ∧
      (loop sqrtf s i).1 =
        { performDriftCorrection (loopPrologue s i) i.driftNow with
          lastDriftCorrection := i.currentTime }) := by
  rw [loop_eq] at h ⊢
  by_cases hu : i.connected = true ∧ millisDiff i.currentTime (loopPrologue s i).lastUpdate > 20
  · by_cases hd : (loopPrologue s i).enableDriftCorrection = true ∧
        millisDiff i.currentTime (loopPrologue s i).lastDriftCorrection > 30000
    · left
      rw [if_pos hu, if_pos hd]
      exact ⟨hu, rfl, rfl⟩
    · rw [if_pos hu, if_neg hd] at h
      simp at h
  · by_cases hd : (loopPrologue s i).enableDriftCorrection = true ∧
        millisDiff i.currentTime (loopPrologue s i).lastDriftCorrection > 30000
    · right
      rw [if_neg hu, if_pos hd]
      exact ⟨hu, rfl, rfl⟩
    · rw [if_neg hu, if_neg hd] at h
      simp at h

/-- Witness for C8 (amended): the same iteration with the BLE host connected
runs `performDriftCorrection`, and the theorem gives the two cases for it. -/
theorem drift_correction_ordering_witness :
    Call.performDriftCorrection ∈ (loop Rat.sqrt staleStillState (iterationAt40000 true)).2.2 ∧
    ((((iterationAt40000 true).connected = true ∧
        millisDiff (iterationAt40000 true).currentTime
          (loopPrologue staleStillState (iterationAt40000 true)).lastUpdate > 20) ∧
      (loop Rat.sqrt staleStillState (iterationAt40000 true)).2.2
        = [Call.updateMousePosition, Call.performDriftCorrection] ∧
      (loop Rat.sqrt staleStillState (iterationAt40000 true)).1 =
        { performDriftCorrection
            { (updateMousePosition Rat.sqrt (loopPrologue staleStillState (iterationAt40000 true))
                (iterationAt40000 true).sample (iterationAt40000 true).tick).1 with
              lastUpdate := (iterationAt40000 true).currentTime }
            (iterationAt40000 true).driftNow with
          lastDriftCorrection := (iterationAt40000 true).currentTime }) ∨
    (¬ ((iterationAt40000 true).connected = true ∧
        millisDiff (iterationAt40000 true).currentTime
          (loopPrologue staleStillState (iterationAt40000 true)).lastUpdate > 20) ∧
      (loop Rat.sqrt staleStillState (iterationAt40000 true)).2.2
        = [Call.performDriftCorrection] ∧
      (loop Rat.sqrt staleStillState (iterationAt40000 true)).1 =
        { performDriftCorrection (loopPrologue staleStillState (iterationAt40000 true))
            (iterationAt40000 true).driftNow with
          lastDriftCorrection := (iterationAt40000 true).currentTime })) := by
  have hl : (loop Rat.sqrt staleStillState (iterationAt40000 true)).2.2
      = [Call.updateMousePosition, Call.performDriftCorrection] := by
    rw [loop_eq, if_pos, if_pos]
    · rw [loopPrologue_stale]
      exact ⟨rfl, by decide⟩
    · rw [loopPrologue_stale]
      exact ⟨rfl, by decide⟩
  have hmem : Call.performDriftCorrection ∈
      (loop Rat.sqrt staleStillState (iterationAt40000 true)).2.2 := by
    rw [hl]; decide
  exact ⟨hmem, drift_correction_ordering Rat.sqrt staleStillState (iterationAt40000 true) hmem⟩

/-- Which scroll events a tick of a calibrated system emits. -/
lemma updateMousePosition_scroll_iff (sqrtf : ℚ → ℚ) (s : State) (smp : SensorSample)
    (t : TickTimes) (hc : s.isCalibrated = true) (w : ℤ) :
    Event.scroll w ∈ (updateMousePosition sqrtf s smp t).2 ↔
      (w = scrollValue sqrtf s smp t ∧ |scrollValue sqrtf s smp t| > 1) := by
  rw [updateMousePosition_events sqrtf s smp t hc]
  simp only [List.mem_append, scrollValue]
  constructor
  · rintro ((h | h) | h)
    · split_ifs at h <;> simp at h
    · split_ifs at h with hbig
      · simp only [List.mem_singleton, Event.scroll.injEq] at h
        exact ⟨h, hbig⟩
      · cases h
    · split_ifs at h <;> simp at h
  · rintro ⟨h1, hbig⟩
    left; right
    rw [if_pos hbig, h1]
    exact List.mem_singleton.mpr rfl

lemma deadzoned_of_ge {dz v : ℚ} (h : dz ≤ |v|) : deadzoned dz v = v := by
  unfold deadzoned
  rw [if_neg (not_lt.mpr h)]

lemma activeDeadzone_le (b : Bool) : activeDeadzone b ≤ 0.04 := by
  cases b <;> norm_num [activeDeadzone]

/-- C11: for a calibrated system, with `s` the scroll amount
`clamp (int (gz * scrollSensitivity * 8)) (-5) 5` of the deadzoned corrected
Z rate, a tick emits a scroll event exactly when `|s| > 1`, and the value
emitted is `s`; so `s` equal to 1, 0 or -1 emits no scroll, and every
emitted scroll has `2 ≤ |scroll| ≤ 5`. -/
theorem scroll_threshold (sqrtf : ℚ → ℚ) (s : State) (smp : SensorSample) (t : TickTimes)
    (hc : s.isCalibrated = true) :
    (∀ w, Event.scroll w ∈ (updateMousePosition sqrtf s smp t).2 ↔
      (w = scrollValue sqrtf s smp t ∧ |scrollValue sqrtf s smp t| > 1)) ∧
    (|scrollValue sqrtf s smp t| ≤ 1 →
      ∀ w, Event.scroll w ∉ (updateMousePosition sqrtf s smp t).2) ∧
    (∀ w, Event.scroll w ∈ (updateMousePosition sqrtf s smp t).2 → 2 ≤ |w| ∧ |w| ≤ 5) := by
  refine ⟨updateMousePosition_scroll_iff sqrtf s smp t hc, ?_, ?_⟩
  · intro hsmall w hw
    have h2 := ((updateMousePosition_scroll_iff sqrtf s smp t hc w).mp hw).2
    exact absurd hsmall (not_le.mpr h2)
  intro w hw
  obtain ⟨h1, h2⟩ := (updateMousePosition_scroll_iff sqrtf s smp t hc w).mp hw
  rw [h1]
  refine ⟨h2, ?_⟩
  have hb := constrain_mem (toInt (deadzoned (activeDeadzone (stillAfter sqrtf s smp t))
    (correctedGyro s smp).z * scrollSensitivity * 8)) (show (-5 : ℤ) ≤ 5 by decide)
  exact abs_le.mpr hb

lemma yaw_scrollValue :
    scrollValue Rat.sqrt scenarioState yawSample ⟨1000, 1000, 1000⟩ = 2 := by
  have hz : (correctedGyro scenarioState yawSample).z = 0.25 := by
    simp only [correctedGyro, scenarioState, yawSample, initialState]
    norm_num
  have hd : deadzoned (activeDeadzone
      (stillAfter Rat.sqrt scenarioState yawSample ⟨1000, 1000, 1000⟩)) (0.25 : ℚ) = 0.25 := by
    apply deadzoned_of_ge
    have := activeDeadzone_le (stillAfter Rat.sqrt scenarioState yawSample ⟨1000, 1000, 1000⟩)
    rw [abs_of_pos (by norm_num)]
    linarith
  have ht : toInt ((0.25 : ℚ) * scrollSensitivity * 8) = 2 :=
    toInt_eq (Or.inl (by norm_num [scrollSensitivity]))
  unfold scrollValue
  rw [hz, hd, ht]
  decide

/-- Witness for C11: a yaw of 0.25 rad/s gives the scroll amount 2, which is
emitted as 2. -/
theorem scroll_threshold_witness :
    scenarioState.isCalibrated = true ∧
    scrollValue Rat.sqrt scenarioState yawSample ⟨1000, 1000, 1000⟩ = 2 ∧
    Event.scroll 2 ∈
      (updateMousePosition Rat.sqrt scenarioState yawSample ⟨1000, 1000, 1000⟩).2 :=
  ⟨rfl, yaw_scrollValue,
    ((scroll_threshold Rat.sqrt scenarioState yawSample ⟨1000, 1000, 1000⟩ rfl).1 2).mpr
      ⟨yaw_scrollValue.symm, by rw [yaw_scrollValue]; decide⟩⟩

/-- C12: for a calibrated system, every emitted move has `dx` and `dy` in
`[-25, 25]`; a delta that is 25 or more before clamping is emitted as 25, one
that is -25 or less as -25, and one strictly inside the range unchanged. -/
theorem cursor_clamp (sqrtf : ℚ → ℚ) (s : State) (smp : SensorSample) (t : TickTimes)
    (hc : s.isCalibrated = true) (dx dy : ℤ)
    (hm : Event.move dx dy ∈ (updateMousePosition sqrtf s smp t).2) :
    (-25 ≤ dx ∧ dx ≤ 25 ∧ -25 ≤ dy ∧ dy ≤ 25) ∧
    (25 ≤ rawDeltaX sqrtf s smp t → dx = 25) ∧
    (rawDeltaX sqrtf s smp t ≤ -25 → dx = -25) ∧
    (-25 < rawDeltaX sqrtf s smp t → rawDeltaX sqrtf s smp t < 25 →
      dx = rawDeltaX sqrtf s smp t) ∧
    (25 ≤ rawDeltaY sqrtf s smp t → dy = 25) ∧
    (rawDeltaY sqrtf s smp t ≤ -25 → dy = -25) ∧
    (-25 < rawDeltaY sqrtf s smp t → rawDeltaY sqrtf s smp t < 25 →
      dy = rawDeltaY sqrtf s smp t) := by
  obtain ⟨h1, h2, _⟩ := (updateMousePosition_move_iff sqrtf s smp t hc dx dy).mp hm
  have hx : dx = constrain (rawDeltaX sqrtf s smp t) (-25) 25 := h1
  have hy : dy = constrain (rawDeltaY sqrtf s smp t) (-25) 25 := h2
  have bx := constrain_mem (rawDeltaX sqrtf s smp t) (show (-25 : ℤ) ≤ 25 by decide)
  have bY := constrain_mem (rawDeltaY sqrtf s smp t) (show (-25 : ℤ) ≤ 25 by decide)
  rw [← hx] at bx
  rw [← hy] at bY
  refine ⟨⟨bx.1, bx.2, bY.1, bY.2⟩, ?_, ?_, ?_, ?_, ?_, ?_⟩
  · intro h
    rw [hx]; unfold constrain; split_ifs <;> omega
  · intro h
    rw [hx]; unfold constrain; split_ifs <;> omega
  · intro h h'
    rw [hx]; unfold constrain; split_ifs <;> omega
  · intro h
    rw [hy]; unfold constrain; split_ifs <;> omega
  · intro h
    rw [hy]; unfold constrain; split_ifs <;> omega
  · intro h h'
    rw [hy]; unfold constrain; split_ifs <;> omega

lemma fast_deadzoned (v : ℚ) (hv : 0.04 ≤ v) :
    deadzoned (activeDeadzone
      (stillAfter Rat.sqrt scenarioState fastSample ⟨1000, 1000, 1000⟩)) v = v := by
  apply deadzoned_of_ge
  have := activeDeadzone_le (stillAfter Rat.sqrt scenarioState fastSample ⟨1000, 1000, 1000⟩)
  rw [abs_of_pos (by linarith)]
  linarith

lemma fast_rawDeltaX :
    rawDeltaX Rat.sqrt scenarioState fastSample ⟨1000, 1000, 1000⟩ = 40 := by
  have hy : (correctedGyro scenarioState fastSample).y = 1.12 := by
    simp only [correctedGyro, scenarioState, fastSample, initialState]
    norm_num
  have hs : scenarioState.mousesensitivity = 3.0 := rfl
  unfold rawDeltaX
  rw [hy, fast_deadzoned _ (by norm_num), hs]
  exact toInt_eq (Or.inl (by norm_num))

lemma fast_rawDeltaY :
    rawDeltaY Rat.sqrt scenarioState fastSample ⟨1000, 1000, 1000⟩ = 0 := by
  have hx : (correctedGyro scenarioState fastSample).x = 0 := by
    simp only [correctedGyro, scenarioState, fastSample, initialState]
    norm_num
  unfold rawDeltaY
  rw [hx, deadzoned_of_lt, neg_zero, zero_mul, zero_mul, toInt_zero]
  rw [abs_zero]
  cases stillAfter Rat.sqrt scenarioState fastSample ⟨1000, 1000, 1000⟩ <;>
    norm_num [activeDeadzone]

lemma fast_move :
    Event.move 25 0 ∈
      (updateMousePosition Rat.sqrt scenarioState fastSample ⟨1000, 1000, 1000⟩).2 := by
  rw [updateMousePosition_move_iff Rat.sqrt scenarioState fastSample _ rfl]
  have hx := fast_rawDeltaX
  have hy := fast_rawDeltaY
  unfold rawDeltaX at hx
  unfold rawDeltaY at hy
  rw [hx, hy]
  decide

/-- Witness for C12: a delta of 40 before clamping is emitted as exactly
25. -/
theorem cursor_clamp_witness :
    scenarioState.isCalibrated = true ∧
    Event.move 25 0 ∈
      (updateMousePosition Rat.sqrt scenarioState fastSample ⟨1000, 1000, 1000⟩).2 ∧
    rawDeltaX Rat.sqrt scenarioState fastSample ⟨1000, 1000, 1000⟩ = 40 ∧
    ((-25 : ℤ) ≤ 25 ∧ (25 : ℤ) ≤ 25 ∧ (-25 : ℤ) ≤ 0 ∧ (0 : ℤ) ≤ 25) :=
  ⟨rfl, fast_move, fast_rawDeltaX,
    (cursor_clamp Rat.sqrt scenarioState fastSample ⟨1000, 1000, 1000⟩ rfl 25 0 fast_move).1⟩

/-- C13: before calibration `updateMousePosition` emits no event and leaves
the whole state unchanged, whatever the sample and the time. -/
theorem no_processing_before_calibration (sqrtf : ℚ → ℚ) (s : State) (smp : SensorSample)
    (t : TickTimes) (h : s.isCalibrated = false) :
    updateMousePosition sqrtf s smp t = (s, []) := by
  simp [updateMousePosition, h]

/-- Witness for C13: the initial state is not calibrated; a jolt in it is
ignored. -/
theorem no_processing_before_calibration_witness :
    initialState.isCalibrated = false ∧
    updateMousePosition Rat.sqrt initialState joltSample ⟨1000, 1000, 1000⟩
      = (initialState, []) :=
  ⟨rfl, no_processing_before_calibration Rat.sqrt initialState joltSample
    ⟨1000, 1000, 1000⟩ rfl⟩

/-- C14: `detectStillness` on the vector `(x, y, z)` at time `t`: with the
magnitude below 0.02 and the device not yet still, it sets `isDeviceStill`
and stamps `stillStartTime := t`; with the magnitude below 0.02 and the device
already still, it changes nothing; with the magnitude at least 0.02 it clears
`isDeviceStill` and keeps `stillStartTime`. After the call `isDeviceStill`
holds exactly when the magnitude of this tick is below 0.02. -/
theorem stillness_latch (sqrtf : ℚ → ℚ) (s : State) (x y z : ℚ) (t : ℕ) :
    (sqrtf (x * x + y * y + z * z) < 0.02 → s.isDeviceStill = false →
      detectStillness sqrtf s x y z t = { s with stillStartTime := t, isDeviceStill := true }) ∧
    (sqrtf (x * x + y * y + z * z) < 0.02 → s.isDeviceStill = true →
      detectStillness sqrtf s x y z t = s) ∧
    (0.02 ≤ sqrtf (x * x + y * y + z * z) →
      detectStillness sqrtf s x y z t = { s with isDeviceStill := false }) ∧
    ((detectStillness sqrtf s x y z t).isDeviceStill = true ↔
      sqrtf (x * x + y * y + z * z) < 0.02) := by
  refine ⟨?_, ?_, ?_, ?_⟩
  · intro h hs
    simp [detectStillness, movementThreshold, h, hs]
  · intro h hs
    simp [detectStillness, movementThreshold, h, hs]
  · intro h
    simp [detectStillness, movementThreshold, not_lt.mpr h]
  · by_cases h : sqrtf (x * x + y * y + z * z) < 0.02
    · by_cases hs : s.isDeviceStill = true
      · simp [detectStillness, movementThreshold, h, hs]
      · simp only [Bool.not_eq_true] at hs
        simp [detectStillness, movementThreshold, h, hs]
    · simp [detectStillness, movementThreshold, h]

/-- Witness for C14: a rate of 0.01 rad/s about X, seen at time 7000 by a
device not yet still, latches stillness at 7000. -/
theorem stillness_latch_witness :
    Rat.sqrt (0.01 * 0.01 + 0 * 0 + 0 * 0) < 0.02 ∧
    scenarioState.isDeviceStill = false ∧
    detectStillness Rat.sqrt scenarioState 0.01 0 0 7000
      = { scenarioState with stillStartTime := 7000, isDeviceStill := true } := by
  have h : Rat.sqrt (0.01 * 0.01 + 0 * 0 + 0 * 0) < 0.02 := by
    rw [ratSqrt_of_sq (q := 0.01) (by norm_num) (by norm_num)]
    norm_num
  exact ⟨h, rfl, (stillness_latch Rat.sqrt scenarioState 0.01 0 0 7000).1 h rfl⟩

/-- The sampling loop of `calibrateGyro` accumulates the three sums. -/
lemma calibrate_sums (samples : ℕ → Vec3) (n : ℕ) :
    (List.range n).foldl
      (fun acc i => (⟨acc.x + (samples i).x, acc.y + (samples i).y, acc.z + (samples i).z⟩ : Vec3))
      ⟨0, 0, 0⟩ =
    ⟨∑ i in Finset.range n, (samples i).x, ∑ i in Finset.range n, (samples i).y,
      ∑ i in Finset.range n, (samples i).z⟩ := by
  induction n with
  | zero => simp
  | succ n ih =>
    rw [List.range_succ, List.foldl_append, ih]
    simp [Finset.sum_range_succ]

lemma calibrateGyro_offsets (s : State) (samples : ℕ → Vec3) :
    (calibrateGyro s samples).gyroOffsetX = (∑ i in Finset.range 250, (samples i).x) / 250 ∧
    (calibrateGyro s samples).gyroOffsetY = (∑ i in Finset.range 250, (samples i).y) / 250 ∧
    (calibrateGyro s samples).gyroOffsetZ = (∑ i in Finset.range 250, (samples i).z) / 250 := by
  simp only [calibrateGyro, calibrate_sums]
  norm_num

/-- C15: `calibrateGyro` sets each offset to the sum of the 250 samples of
that axis divided by 250 and sets `isCalibrated`; the resulting offsets do not
depend on the prior state. -/
theorem calibration_is_mean (s : State) (samples : ℕ → Vec3) :
    (calibrateGyro s samples).gyroOffsetX = (∑ i in Finset.range 250, (samples i).x) / 250 ∧
    (calibrateGyro s samples).gyroOffsetY = (∑ i in Finset.range 250, (samples i).y) / 250 ∧
    (calibrateGyro s samples).gyroOffsetZ = (∑ i in Finset.range 250, (samples i).z) / 250 ∧
    (calibrateGyro s samples).isCalibrated = true ∧
    (∀ s2 : State,
      (calibrateGyro s2 samples).gyroOffsetX = (calibrateGyro s samples).gyroOffsetX ∧
      (calibrateGyro s2 samples).gyroOffsetY = (calibrateGyro s samples).gyroOffsetY ∧
      (calibrateGyro s2 samples).gyroOffsetZ = (calibrateGyro s samples).gyroOffsetZ) := by
  obtain ⟨hx, hy, hz⟩ := calibrateGyro_offsets s samples
  refine ⟨hx, hy, hz, rfl, ?_⟩
  intro s2
  obtain ⟨hx2, hy2, hz2⟩ := calibrateGyro_offsets s2 samples
  exact ⟨hx2.trans hx.symm, hy2.trans hy.symm, hz2.trans hz.symm⟩

lemma updateMousePosition_sensitivity (sqrtf : ℚ → ℚ) (s : State) (smp : SensorSample)
    (t : TickTimes) :
    (updateMousePosition sqrtf s smp t).1.mousesensitivity = s.mousesensitivity := by
  by_cases hc : s.isCalibrated = true
  · rw [updateMousePosition_state sqrtf s smp t hc]
    exact (detectStillness_frame sqrtf s _ _ _ _).1
  · simp [updateMousePosition, hc]

lemma performDriftCorrection_sensitivity (s : State) (now : ℕ) :
    (performDriftCorrection s now).mousesensitivity = s.mousesensitivity := by
  unfold performDriftCorrection
  split_ifs <;> rfl

/-- The two sensitivity commands on a state whose sensitivity is on the grid:
a step of 0.5 that stops at the ends of the range. -/
lemma sensitivity_step (s : State) (samples : ℕ → Vec3) (h : SensOnGrid s) :
    (handleSerialCommands s (some '+') samples).mousesensitivity =
      (if s.mousesensitivity = 10.0 then 10.0 else s.mousesensitivity + 0.5) ∧
    (handleSerialCommands s (some '-') samples).mousesensitivity =
      (if s.mousesensitivity = 0.5 then 0.5 else s.mousesensitivity - 0.5) := by
  obtain ⟨⟨hlo, hhi⟩, k, hk⟩ := h
  have e1 : (handleSerialCommands s (some '+') samples).mousesensitivity =
      constrain (s.mousesensitivity + 0.5) 0.5 10.0 := by
    simp [handleSerialCommands]
  have e2 : (handleSerialCommands s (some '-') samples).mousesensitivity =
      constrain (s.mousesensitivity - 0.5) 0.5 10.0 := by
    simp [handleSerialCommands]
  rw [e1, e2]
  constructor
  · by_cases h10 : s.mousesensitivity = 10.0
    · rw [if_pos h10, h10]
      norm_num [constrain]
    · rw [if_neg h10]
      have hk20 : k ≤ 20 := by
        have : (k : ℚ) ≤ 20 := by rw [hk] at hhi; norm_num at hhi; linarith
        exact_mod_cast this
      have hkne : k ≠ 20 := by
        intro hk'
        apply h10
        rw [hk, hk']
        norm_num
      have hk19 : (k : ℚ) ≤ 19 := by
        have : k ≤ 19 := by omega
        exact_mod_cast this
      apply constrain_of_mem
      · norm_num at hlo ⊢; linarith
      · rw [hk]; norm_num; linarith
  · by_cases h05 : s.mousesensitivity = 0.5
    · rw [if_pos h05, h05]
      norm_num [constrain]
    · rw [if_neg h05]
      have hk1 : 1 ≤ k := by
        have : (1 : ℚ) ≤ k := by rw [hk] at hlo; norm_num at hlo; linarith
        exact_mod_cast this
      have hkne : k ≠ 1 := by
        intro hk'
        apply h05
        rw [hk, hk']
        norm_num
      have hk2 : (2 : ℚ) ≤ k := by
        have : 2 ≤ k := by omega
        exact_mod_cast this
      apply constrain_of_mem
      · rw [hk]; norm_num; linarith
      · norm_num at hhi ⊢; linarith

lemma handleSerialCommands_grid (s : State) (cmd : Char) (samples : ℕ → Vec3)
    (h : SensOnGrid s) : SensOnGrid (handleSerialCommands s (some cmd) samples) := by
  obtain ⟨hp, hm⟩ := sensitivity_step s samples h
  have h' := h
  obtain ⟨⟨hlo, hhi⟩, k, hk⟩ := h'
  by_cases c1 : cmd = '+'
  · subst c1
    refine ⟨?_, ?_⟩
    · rw [hp]; split_ifs with h10
      · norm_num
      · have e : (handleSerialCommands s (some '+') samples).mousesensitivity =
            constrain (s.mousesensitivity + 0.5) 0.5 10.0 := by simp [handleSerialCommands]
        have := constrain_mem (s.mousesensitivity + 0.5) (show (0.5 : ℚ) ≤ 10.0 by norm_num)
        rw [← e, hp, if_neg h10] at this
        exact this
    · rw [hp]; split_ifs with h10
      · exact ⟨20, by norm_num⟩
      · exact ⟨k + 1, by rw [hk]; push_cast; ring⟩
  · by_cases c2 : cmd = '-'
    · subst c2
      refine ⟨?_, ?_⟩
      · rw [hm]; split_ifs with h05
        · norm_num
        · have e : (handleSerialCommands s (some '-') samples).mousesensitivity =
              constrain (s.mousesensitivity - 0.5) 0.5 10.0 := by simp [handleSerialCommands]
          have := constrain_mem (s.mousesensitivity - 0.5) (show (0.5 : ℚ) ≤ 10.0 by norm_num)
          rw [← e, hm, if_neg h05] at this
          exact this
      · rw [hm]; split_ifs with h05
        · exact ⟨1, by norm_num⟩
        · exact ⟨k - 1, by rw [hk]; push_cast; ring⟩
    · have e : (handleSerialCommands s (some cmd) samples).mousesensitivity
          = s.mousesensitivity := by
        simp only [handleSerialCommands, c1, c2, if_false]
        split_ifs <;> simp [calibrateGyro]
      exact ⟨by rw [e]; exact ⟨hlo, hhi⟩, k, by rw [e]; exact hk⟩

lemma sensOnGrid_congr {s s' : State} (e : s'.mousesensitivity = s.mousesensitivity)
    (h : SensOnGrid s) : SensOnGrid s' := by
  unfold SensOnGrid
  rw [e]
  exact h

lemma Op.apply_grid (sqrtf : ℚ → ℚ) (s : State) (op : Op) (h : SensOnGrid s) :
    SensOnGrid (op.apply sqrtf s) := by
  cases op with
  | update smp t => exact sensOnGrid_congr (updateMousePosition_sensitivity sqrtf s smp t) h
  | drift now => exact sensOnGrid_congr (performDriftCorrection_sensitivity s now) h
  | calibrate samples => exact sensOnGrid_congr (s := s) rfl h
  | serial cmd samples => exact handleSerialCommands_grid s cmd samples h

lemma run_grid (sqrtf : ℚ → ℚ) (ops : List Op) :
    ∀ s : State, SensOnGrid s → SensOnGrid (run sqrtf s ops) := by
  induction ops with
  | nil => intro s h; exact h
  | cons op ops ih =>
    intro s h
    exact ih _ (Op.apply_grid sqrtf s op h)

lemma initialState_grid : SensOnGrid initialState :=
  ⟨⟨by norm_num [initialState], by norm_num [initialState]⟩, 6, by norm_num [initialState]⟩

/-- C16: starting from the initial sensitivity 3.0, after any finite sequence
of operations (in particular of `+` and `-` commands) the sensitivity lies in
`[0.5, 10]` and is an integer multiple of 0.5; in such a state `+` adds
exactly 0.5 unless the value is 10, where it stays 10, and `-` subtracts
exactly 0.5 unless the value is 0.5, where it stays 0.5. -/
theorem sensitivity_grid (sqrtf : ℚ → ℚ) (ops : List Op) (samples : ℕ → Vec3) :
    (0.5 ≤ (run sqrtf initialState ops).mousesensitivity ∧
      (run sqrtf initialState ops).mousesensitivity ≤ 10.0) ∧
    (∃ k : ℤ, (run sqrtf initialState ops).mousesensitivity = k * 0.5) ∧
    (handleSerialCommands (run sqrtf initialState ops) (some '+') samples).mousesensitivity =
      (if (run sqrtf initialState ops).mousesensitivity = 10.0 then 10.0
        else (run sqrtf initialState ops).mousesensitivity + 0.5) ∧
    (handleSerialCommands (run sqrtf initialState ops) (some '-') samples).mousesensitivity =
      (if (run sqrtf initialState ops).mousesensitivity = 0.5 then 0.5
        else (run sqrtf initialState ops).mousesensitivity - 0.5) := by
  have hg := run_grid sqrtf ops initialState initialState_grid
  obtain ⟨hp, hm⟩ := sensitivity_step (run sqrtf initialState ops) samples hg
  exact ⟨hg.1, hg.2, hp, hm⟩

/-! ## The square root and stillness -/

lemma sqrtUp_sound : SqrtSound sqrtUp := by
  intro v hv
  have hden : (0 : ℚ) < v.den := by exact_mod_cast v.den_pos
  have hnum : (0 : ℤ) ≤ v.num := Rat.num_nonneg.mpr hv
  have hvn : v = ((v.num.toNat * v.den : ℕ) : ℚ) / (v.den * v.den) := by
    have h1 : ((v.num.toNat : ℕ) : ℚ) = (v.num : ℚ) := by
      have : ((v.num.toNat : ℕ) : ℤ) = v.num := Int.toNat_of_nonneg hnum
      exact_mod_cast this
    push_cast
    rw [h1]
    have hd : (v.den : ℚ) ≠ 0 := hden.ne'
    calc v = (v.num : ℚ) / v.den := (Rat.num_div_den v).symm
      _ = (v.num : ℚ) * v.den / (v.den * v.den) := by field_simp; ring
  have hr : (0 : ℚ) ≤ (Nat.sqrt (v.num.toNat * v.den) : ℚ) := Nat.cast_nonneg _
  unfold sqrtUp
  split_ifs with hsq
  · refine ⟨div_nonneg hr hden.le, ?_⟩
    have hsq' : ((Nat.sqrt (v.num.toNat * v.den) : ℚ)) * (Nat.sqrt (v.num.toNat * v.den) : ℚ)
        = ((v.num.toNat * v.den : ℕ) : ℚ) := by exact_mod_cast hsq
    rw [div_mul_div_comm, hsq']
    exact hvn.le
  · refine ⟨div_nonneg (by linarith) hden.le, ?_⟩
    have hlt : v.num.toNat * v.den <
        (Nat.sqrt (v.num.toNat * v.den) + 1) * (Nat.sqrt (v.num.toNat * v.den) + 1) :=
      Nat.lt_succ_sqrt _
    have hlt' : ((v.num.toNat * v.den : ℕ) : ℚ) <
        ((Nat.sqrt (v.num.toNat * v.den) : ℚ) + 1) * ((Nat.sqrt (v.num.toNat * v.den) : ℚ) + 1) := by
      exact_mod_cast hlt
    rw [div_mul_div_comm]
    calc v = ((v.num.toNat * v.den : ℕ) : ℚ) / (v.den * v.den) := hvn
      _ ≤ _ := div_le_div_of_nonneg_right hlt'.le (mul_nonneg hden.le hden.le)

/-- With a sound square root, a magnitude below the threshold puts every axis
below the base deadzone. -/
lemma axes_below_of_sqrt_lt {sqrtf : ℚ → ℚ} (hs : SqrtSound sqrtf) {x y z : ℚ}
    (h : sqrtf (x * x + y * y + z * z) < movementThreshold) :
    |x| < 0.02 ∧ |y| < 0.02 ∧ |z| < 0.02 := by
  have hv : 0 ≤ x * x + y * y + z * z := by
    nlinarith [mul_self_nonneg x, mul_self_nonneg y, mul_self_nonneg z]
  obtain ⟨h0, h1⟩ := hs _ hv
  have ht : sqrtf (x * x + y * y + z * z) < 0.02 := h
  have hsq : sqrtf (x * x + y * y + z * z) * sqrtf (x * x + y * y + z * z) < 0.02 * 0.02 := by
    nlinarith
  have key : ∀ a : ℚ, a * a ≤ x * x + y * y + z * z → |a| < 0.02 := by
    intro a ha
    have h2 : a * a < 0.02 * 0.02 := by linarith
    have h3 : |a| * |a| < 0.02 * 0.02 := by rw [abs_mul_abs_self]; exact h2
    by_contra hcon
    have h4 : (0.02 : ℚ) ≤ |a| := not_lt.mp hcon
    have h5 : (0.02 : ℚ) * 0.02 ≤ |a| * |a| := by nlinarith
    linarith
  refine ⟨key x ?_, key y ?_, key z ?_⟩
  · nlinarith [mul_self_nonneg y, mul_self_nonneg z]
  · nlinarith [mul_self_nonneg x, mul_self_nonneg z]
  · nlinarith [mul_self_nonneg x, mul_self_nonneg y]

lemma detectStillness_still_iff (sqrtf : ℚ → ℚ) (s : State) (x y z : ℚ) (t : ℕ) :
    (detectStillness sqrtf s x y z t).isDeviceStill = true ↔
      sqrtf (x * x + y * y + z * z) < movementThreshold := by
  by_cases h : sqrtf (x * x + y * y + z * z) < movementThreshold
  · by_cases hs : s.isDeviceStill = true
    · simp [detectStillness, h, hs]
    · simp only [Bool.not_eq_true] at hs
      simp [detectStillness, h, hs]
  · simp [detectStillness, h]

lemma sqrtUp_of_sq {q : ℚ} (hq : 0 ≤ q) : sqrtUp (q * q) = q := by
  have hnum : (0 : ℤ) ≤ q.num := Rat.num_nonneg.mpr hq
  have hcast : ((q.num.toNat : ℕ) : ℤ) = q.num := Int.toNat_of_nonneg hnum
  have hn : (q * q).num.toNat = q.num.toNat * q.num.toNat := by
    rw [Rat.mul_self_num]
    have : q.num * q.num = ((q.num.toNat * q.num.toNat : ℕ) : ℤ) := by
      push_cast
      rw [hcast]
    rw [this, Int.toNat_natCast]
  have hd : (q * q).den = q.den * q.den := Rat.mul_self_den q
  have harg : (q * q).num.toNat * (q * q).den
      = (q.num.toNat * q.den) * (q.num.toNat * q.den) := by
    rw [hn, hd]; ring
  have hsqrt : Nat.sqrt ((q * q).num.toNat * (q * q).den) = q.num.toNat * q.den := by
    rw [harg, Nat.sqrt_eq]
  have hden : (q.den : ℚ) ≠ 0 := by exact_mod_cast q.den_pos.ne'
  have hq' : ((q.num.toNat : ℕ) : ℚ) = (q.num : ℚ) := by exact_mod_cast hcast
  unfold sqrtUp
  rw [hsqrt, if_pos harg.symm, hd]
  push_cast
  rw [hq']
  calc (q.num : ℚ) * q.den / (q.den * q.den) = (q.num : ℚ) / q.den := by
        field_simp; ring
    _ = q := Rat.num_div_den q

/-- The deadzoning of one axis does not depend on the stillness flag once the
flag implies that the axis is below the base deadzone. -/
lemma adaptive_eq_base (b : Bool) (v : ℚ) (h : b = true → |v| < 0.02) :
    (if |v| < (if b = true then (0.02 : ℚ) * 2.0 else 0.02) then 0 else v)
      = (if |v| < 0.02 then 0 else v) := by
  by_cases hb : b = true
  · have hv := h hb
    rw [if_pos hb, if_pos hv, if_pos (by linarith)]
  · rw [if_neg hb]

/-- C18: with a sound square root, `updateMousePosition` gives the same state
and the same events as the variant that always uses the base deadzone 0.02:
the device is flagged still in a tick only when the corrected magnitude is
below 0.02, and then every axis is already below the base deadzone. -/
theorem adaptive_deadzone_redundant (sqrtf : ℚ → ℚ) (hs : SqrtSound sqrtf) (s : State)
    (smp : SensorSample) (t : TickTimes) :
    updateMousePosition sqrtf s smp t = updateMousePositionBaseDeadzone sqrtf s smp t := by
  by_cases hc : s.isCalibrated = true
  · have hax := fun h => axes_below_of_sqrt_lt hs
      ((detectStillness_still_iff sqrtf s (smp.gyro.x - s.gyroOffsetX - s.driftCorrectionX)
        (smp.gyro.y - s.gyroOffsetY - s.driftCorrectionY) (smp.gyro.z - s.gyroOffsetZ)
        t.still).mp h)
    have hx := adaptive_eq_base _ (smp.gyro.x - s.gyroOffsetX - s.driftCorrectionX)
      (fun h => (hax h).1)
    have hy := adaptive_eq_base _ (smp.gyro.y - s.gyroOffsetY - s.driftCorrectionY)
      (fun h => (hax h).2.1)
    have hz := adaptive_eq_base _ (smp.gyro.z - s.gyroOffsetZ)
      (fun h => (hax h).2.2)
    simp only [updateMousePosition, updateMousePositionBaseDeadzone, hc, Bool.not_true,
      Bool.false_eq_true, if_false, hx, hy, hz]
  · simp [updateMousePosition, updateMousePositionBaseDeadzone, hc]

lemma slow_still :
    stillAfter sqrtUp tapState slowSample ⟨1000, 1000, 1000⟩ = true := by
  have hx : (correctedGyro tapState slowSample).x = 0.01 := by
    simp only [correctedGyro, tapState, slowSample, initialState]
    norm_num
  have hy : (correctedGyro tapState slowSample).y = 0 := by
    simp only [correctedGyro, tapState, slowSample, initialState]
    norm_num
  have hz : (correctedGyro tapState slowSample).z = 0 := by
    simp only [correctedGyro, tapState, slowSample, initialState]
    norm_num
  rw [stillAfter, detectStillness_still_iff, hx, hy, hz,
    show (0.01 : ℚ) * 0.01 + 0 * 0 + 0 * 0 = 0.01 * 0.01 by norm_num,
    sqrtUp_of_sq (by norm_num)]
  norm_num [movementThreshold]

/-- Witness for C18: `sqrtUp` is a sound square root; on a slow drift that
flags the device still, the two functions agree. -/
theorem adaptive_deadzone_redundant_witness :
    SqrtSound sqrtUp ∧
    stillAfter sqrtUp tapState slowSample ⟨1000, 1000, 1000⟩ = true ∧
    updateMousePosition sqrtUp tapState slowSample ⟨1000, 1000, 1000⟩
      = updateMousePositionBaseDeadzone sqrtUp tapState slowSample ⟨1000, 1000, 1000⟩ :=
  ⟨sqrtUp_sound, slow_still,
    adaptive_deadzone_redundant sqrtUp sqrtUp_sound tapState slowSample ⟨1000, 1000, 1000⟩⟩

/-! ## Scroll and the drift state -/

lemma toInt_small {f : ℚ} (h : |f| < 1) : toInt f = 0 := by
  obtain ⟨h1, h2⟩ := abs_lt.mp h
  by_cases h0 : 0 ≤ f
  · exact toInt_eq (Or.inl ⟨h0, by simpa using h0, by simpa using h2⟩)
  · have h0' : f < 0 := not_le.mp h0
    exact toInt_eq (Or.inr ⟨h0', by simpa using h1, by simpa using h0'.le⟩)

/-- The scroll amount is the same under the doubled deadzone and under the
base deadzone: between the two the rate is too small to give a nonzero
amount. -/
lemma scroll_deadzone_indep (b : Bool) (v : ℚ) :
    constrain (toInt (deadzoned (activeDeadzone b) v * scrollSensitivity * 8)) (-5) 5 =
      constrain (toInt (deadzoned 0.02 v * scrollSensitivity * 8)) (-5) 5 := by
  cases b with
  | false => rfl
  | true =>
    have hdz : activeDeadzone true = 0.04 := rfl
    rw [hdz]
    by_cases h2 : |v| < 0.02
    · rw [deadzoned_of_lt h2, deadzoned_of_lt (by linarith)]
    · by_cases h4 : |v| < 0.04
      · rw [deadzoned_of_lt h4, deadzoned_of_ge (not_lt.mp h2), zero_mul, zero_mul, toInt_zero]
        have hs : |v * scrollSensitivity * 8| < 1 := by
          have : v * scrollSensitivity * 8 = v * 8 := by norm_num [scrollSensitivity]
          rw [this, abs_mul, abs_of_pos (show (0 : ℚ) < 8 by norm_num)]
          linarith
        rw [toInt_small hs]
      · rw [deadzoned_of_ge (not_lt.mp h4), deadzoned_of_ge (not_lt.mp h2)]

lemma scrollValue_eq (sqrtf : ℚ → ℚ) (s : State) (smp : SensorSample) (t : TickTimes) :
    scrollValue sqrtf s smp t =
      constrain (toInt (deadzoned 0.02 (smp.gyro.z - s.gyroOffsetZ) * scrollSensitivity * 8))
        (-5) 5 := by
  rw [scrollValue, scroll_deadzone_indep]
  rfl

lemma scrollsOf_updateMousePosition (sqrtf : ℚ → ℚ) (s : State) (smp : SensorSample)
    (t : TickTimes) (hc : s.isCalibrated = true) :
    scrollsOf (updateMousePosition sqrtf s smp t).2 =
      (if |scrollValue sqrtf s smp t| > 1 then [scrollValue sqrtf s smp t] else []) := by
  rw [updateMousePosition_events sqrtf s smp t hc]
  simp only [scrollsOf, List.filterMap_append, scrollValue]
  split_ifs <;> simp

/-- C17: two calibrated states that differ only in the four drift fields give,
on the same raw sample, the same scroll events, whatever the stillness flag
of each run. -/
theorem scroll_independent_of_drift (sqrtf : ℚ → ℚ) (s : State) (smp : SensorSample)
    (t1 t2 : TickTimes) (a b c d : ℚ) (hc : s.isCalibrated = true) :
    scrollsOf (updateMousePosition sqrtf s smp t1).2 =
      scrollsOf (updateMousePosition sqrtf
        { s with driftCorrectionX := a, driftCorrectionY := b,
                 gyroIntegralX := c, gyroIntegralY := d } smp t2).2 := by
  have h2 := scrollsOf_updateMousePosition sqrtf
    { s with driftCorrectionX := a, driftCorrectionY := b,
             gyroIntegralX := c, gyroIntegralY := d } smp t2 hc
  rw [scrollsOf_updateMousePosition sqrtf s smp t1 hc, h2, scrollValue_eq, scrollValue_eq]

lemma rest_still :
    stillAfter Rat.sqrt tapState restSample ⟨1000, 1000, 1000⟩ = true := by
  have hx : (correctedGyro tapState restSample).x = 0 := by
    simp only [correctedGyro, tapState, restSample, initialState]; norm_num
  have hy : (correctedGyro tapState restSample).y = 0 := by
    simp only [correctedGyro, tapState, restSample, initialState]; norm_num
  have hz : (correctedGyro tapState restSample).z = 0 := by
    simp only [correctedGyro, tapState, restSample, initialState]; norm_num
  rw [stillAfter, detectStillness_still_iff, hx, hy, hz,
    ratSqrt_of_sq (q := 0) (by norm_num) le_rfl]
  norm_num [movementThreshold]

lemma rest_shifted_not_still :
    stillAfter Rat.sqrt driftShiftedState restSample ⟨1000, 1000, 1000⟩ = false := by
  have hx : (correctedGyro driftShiftedState restSample).x = -0.1 := by
    simp only [correctedGyro, driftShiftedState, tapState, restSample, initialState]; norm_num
  have hy : (correctedGyro driftShiftedState restSample).y = 0 := by
    simp only [correctedGyro, driftShiftedState, tapState, restSample, initialState]; norm_num
  have hz : (correctedGyro driftShiftedState restSample).z = 0 := by
    simp only [correctedGyro, driftShiftedState, tapState, restSample, initialState]; norm_num
  rw [← Bool.not_eq_true, stillAfter, detectStillness_still_iff, hx, hy, hz,
    ratSqrt_of_sq (q := 0.1) (by norm_num) (by norm_num)]
  norm_num [movementThreshold]

/-- Witness for C17: at rest, `tapState` is flagged still while the state with
a drift correction of 0.1 on X is not; the scroll events of the two ticks
agree. -/
theorem scroll_independent_of_drift_witness :
    tapState.isCalibrated = true ∧
    stillAfter Rat.sqrt tapState restSample ⟨1000, 1000, 1000⟩ = true ∧
    stillAfter Rat.sqrt driftShiftedState restSample ⟨1000, 1000, 1000⟩ = false ∧
    scrollsOf (updateMousePosition Rat.sqrt tapState restSample ⟨1000, 1000, 1000⟩).2 =
      scrollsOf (updateMousePosition Rat.sqrt
        { tapState with driftCorrectionX := 0.1, driftCorrectionY := 0,
                        gyroIntegralX := 0.3, gyroIntegralY := -0.2 }
        restSample ⟨1000, 1000, 1000⟩).2 :=
  ⟨rfl, rest_still, rest_shifted_not_still,
    scroll_independent_of_drift Rat.sqrt tapState restSample ⟨1000, 1000, 1000⟩
      ⟨1000, 1000, 1000⟩ 0.1 0 0.3 (-0.2) rfl⟩

/-! ## Still ticks -/

/-- A tick that leaves a calibrated system flagged still, in a state within
the clamp bounds: no move, no scroll, integrals unchanged. -/
lemma still_tick_of_bounded (sqrtf : ℚ → ℚ) (hs : SqrtSound sqrtf) (s : State)
    (smp : SensorSample) (t : TickTimes) (hb : DriftBounded s)
    (hc : s.isCalibrated = true) (hstill : stillAfter sqrtf s smp t = true) :
    (∀ dx dy, Event.move dx dy ∉ (updateMousePosition sqrtf s smp t).2) ∧
    (∀ w, Event.scroll w ∉ (updateMousePosition sqrtf s smp t).2) ∧
    (updateMousePosition sqrtf s smp t).1.gyroIntegralX = s.gyroIntegralX ∧
    (updateMousePosition sqrtf s smp t).1.gyroIntegralY = s.gyroIntegralY := by
  have hlt : sqrtf ((correctedGyro s smp).x * (correctedGyro s smp).x
      + (correctedGyro s smp).y * (correctedGyro s smp).y
      + (correctedGyro s smp).z * (correctedGyro s smp).z) < movementThreshold := by
    rw [stillAfter, detectStillness_still_iff] at hstill
    exact hstill
  obtain ⟨ax, ay, az⟩ := axes_below_of_sqrt_lt hs hlt
  have hdz : activeDeadzone (stillAfter sqrtf s smp t) = 0.04 := by
    rw [hstill]; rfl
  have zx : deadzoned (activeDeadzone (stillAfter sqrtf s smp t)) (correctedGyro s smp).x = 0 :=
    deadzoned_of_lt (by rw [hdz]; linarith)
  have zy : deadzoned (activeDeadzone (stillAfter sqrtf s smp t)) (correctedGyro s smp).y = 0 :=
    deadzoned_of_lt (by rw [hdz]; linarith)
  have zz : deadzoned (activeDeadzone (stillAfter sqrtf s smp t)) (correctedGyro s smp).z = 0 :=
    deadzoned_of_lt (by rw [hdz]; linarith)
  obtain ⟨⟨b1, b1'⟩, ⟨b2, b2'⟩, _, _⟩ := hb
  refine ⟨?_, ?_, ?_, ?_⟩
  · intro dx dy hm
    obtain ⟨h1, h2, hnz⟩ := (updateMousePosition_move_iff sqrtf s smp t hc dx dy).mp hm
    rw [zy, zero_mul, zero_mul, toInt_zero, constrain_zero_cursor] at h1
    rw [zx, neg_zero, zero_mul, zero_mul, toInt_zero, constrain_zero_cursor] at h2
    rcases hnz with hnz | hnz
    · exact hnz h1
    · exact hnz h2
  · intro w hw
    obtain ⟨_, hbig⟩ := (updateMousePosition_scroll_iff sqrtf s smp t hc w).mp hw
    have h0 : scrollValue sqrtf s smp t = 0 := by
      rw [scrollValue, zz, zero_mul, zero_mul, toInt_zero]
      decide
    rw [h0] at hbig
    exact absurd hbig (by decide)
  · rw [updateMousePosition_state sqrtf s smp t hc]
    show (if s.enableDriftCorrection = true then
        constrain (s.gyroIntegralX +
          deadzoned (activeDeadzone (stillAfter sqrtf s smp t)) (correctedGyro s smp).x
            * 0.02) (-1.0) 1.0
      else s.gyroIntegralX) = s.gyroIntegralX
    rw [zx, zero_mul, add_zero, constrain_of_mem b1 b1', ite_self]
  · rw [updateMousePosition_state sqrtf s smp t hc]
    show (if s.enableDriftCorrection = true then
        constrain (s.gyroIntegralY +
          deadzoned (activeDeadzone (stillAfter sqrtf s smp t)) (correctedGyro s smp).y
            * 0.02) (-1.0) 1.0
      else s.gyroIntegralY) = s.gyroIntegralY
    rw [zy, zero_mul, add_zero, constrain_of_mem b2 b2', ite_self]

/-- C19: in every state reached from the initial state, if the system is
calibrated and the device is flagged still after the `detectStillness` call
of this tick, then, with a sound square root, `updateMousePosition` emits no
move and no scroll event and leaves both integrals unchanged. -/
theorem still_tick_silent (sqrtf : ℚ → ℚ) (hs : SqrtSound sqrtf) (ops : List Op)
    (smp : SensorSample) (t : TickTimes)
    (hc : (run sqrtf initialState ops).isCalibrated = true)
    (hstill : stillAfter sqrtf (run sqrtf initialState ops) smp t = true) :
    (∀ dx dy, Event.move dx dy ∉
      (updateMousePosition sqrtf (run sqrtf initialState ops) smp t).2) ∧
    (∀ w, Event.scroll w ∉
      (updateMousePosition sqrtf (run sqrtf initialState ops) smp t).2) ∧
    (updateMousePosition sqrtf (run sqrtf initialState ops) smp t).1.gyroIntegralX
      = (run sqrtf initialState ops).gyroIntegralX ∧
    (updateMousePosition sqrtf (run sqrtf initialState ops) smp t).1.gyroIntegralY
      = (run sqrtf initialState ops).gyroIntegralY :=
  still_tick_of_bounded sqrtf hs _ smp t
    (run_bounded sqrtf ops initialState (driftBounded_of_zero ⟨rfl, rfl, rfl, rfl⟩)) hc hstill

lemma zeroCalibrated_eq :
    run sqrtUp initialState [Op.calibrate zeroCalibration]
      = calibrateGyro initialState zeroCalibration := rfl

lemma zeroCalibrated_still :
    stillAfter sqrtUp (run sqrtUp initialState [Op.calibrate zeroCalibration]) slowSample
      ⟨9000, 9000, 9000⟩ = true := by
  obtain ⟨ox, oy, oz⟩ := calibrateGyro_offsets initialState zeroCalibration
  have hsum : ∀ f : Vec3 → ℚ, f ⟨0, 0, 0⟩ = 0 →
      (∑ i in Finset.range 250, f (zeroCalibration i)) / 250 = 0 := by
    intro f hf
    simp [zeroCalibration, hf]
  rw [hsum (fun v => v.x) rfl] at ox
  rw [hsum (fun v => v.y) rfl] at oy
  rw [hsum (fun v => v.z) rfl] at oz
  have dx : (calibrateGyro initialState zeroCalibration).driftCorrectionX = 0 := rfl
  have dy : (calibrateGyro initialState zeroCalibration).driftCorrectionY = 0 := rfl
  have hx : (correctedGyro (calibrateGyro initialState zeroCalibration) slowSample).x
      = 0.01 := by
    simp only [correctedGyro, ox, dx, slowSample]; norm_num
  have hy : (correctedGyro (calibrateGyro initialState zeroCalibration) slowSample).y = 0 := by
    simp only [correctedGyro, oy, dy, slowSample]; norm_num
  have hz : (correctedGyro (calibrateGyro initialState zeroCalibration) slowSample).z = 0 := by
    simp only [correctedGyro, oz, slowSample]; norm_num
  rw [zeroCalibrated_eq, stillAfter, detectStillness_still_iff, hx, hy, hz,
    show (0.01 : ℚ) * 0.01 + 0 * 0 + 0 * 0 = 0.01 * 0.01 by norm_num,
    sqrtUp_of_sq (by norm_num)]
  norm_num [movementThreshold]

/-- Witness for C19: after a calibration at rest, a slow drift of 0.01 rad/s
leaves the device flagged still; the tick is silent and keeps the
integrals. -/
theorem still_tick_silent_witness :
    SqrtSound sqrtUp ∧
    (run sqrtUp initialState [Op.calibrate zeroCalibration]).isCalibrated = true ∧
    stillAfter sqrtUp (run sqrtUp initialState [Op.calibrate zeroCalibration]) slowSample
      ⟨9000, 9000, 9000⟩ = true ∧
    ((∀ dx dy, Event.move dx dy ∉
      (updateMousePosition sqrtUp (run sqrtUp initialState [Op.calibrate zeroCalibration])
        slowSample ⟨9000, 9000, 9000⟩).2) ∧
    (∀ w, Event.scroll w ∉
      (updateMousePosition sqrtUp (run sqrtUp initialState [Op.calibrate zeroCalibration])
        slowSample ⟨9000, 9000, 9000⟩).2) ∧
    (updateMousePosition sqrtUp (run sqrtUp initialState [Op.calibrate zeroCalibration])
        slowSample ⟨9000, 9000, 9000⟩).1.gyroIntegralX
      = (run sqrtUp initialState [Op.calibrate zeroCalibration]).gyroIntegralX ∧
    (updateMousePosition sqrtUp (run sqrtUp initialState [Op.calibrate zeroCalibration])
        slowSample ⟨9000, 9000, 9000⟩).1.gyroIntegralY
      = (run sqrtUp initialState [Op.calibrate zeroCalibration]).gyroIntegralY) :=
  ⟨sqrtUp_sound, rfl, zeroCalibrated_still,
    still_tick_silent sqrtUp sqrtUp_sound [Op.calibrate zeroCalibration] slowSample
      ⟨9000, 9000, 9000⟩ rfl zeroCalibrated_still⟩

end AirMouse
